import Mathlib

/-!
Shallow embedding of the `admin_validator` repository: the finding model with its
md5-based identity (`src/models.py`), the report reconciliation engine
(`src/report_manager.py`), the validation driver and cell accessor
(`src/validators/base.py`), the value parsers (`src/utils.py`) and the
Sales/Trainings row validators (`src/validators/sales.py`, `trainings.py`).

Modelling conventions: 32-bit words are natural numbers reduced with an explicit
`% 2 ^ 32`; Python `int` is `Int`; Python `float` is modelled by `ℚ` (exact
rationals; IEEE rounding, infinities and NaN are outside the model); Python's
heterogeneous spreadsheet cells are the tagged union `Cell`; Python dicts are
association lists with Python's insertion/overwrite semantics; ambient time
(`datetime.now()`) is an explicit parameter.
-/

namespace AdminValidator

/-! ### md5 (Python `hashlib.md5`), byte-level model -/

/-- UTF-8 encoding of one Unicode scalar value, as byte values. -/
def utf8EncodeChar (c : Nat) : List Nat :=
  if c < 0x80 then [c]
  else if c < 0x800 then [0xC0 + c / 64, 0x80 + c % 64]
  else if c < 0x10000 then [0xE0 + c / 4096, 0x80 + c / 64 % 64, 0x80 + c % 64]
  else [0xF0 + c / 262144, 0x80 + c / 4096 % 64, 0x80 + c / 64 % 64, 0x80 + c % 64]

/-- UTF-8 bytes of a string (Python `str.encode("utf-8")`). -/
def utf8Bytes (s : String) : List Nat :=
  (s.data.map (fun c => utf8EncodeChar c.toNat)).flatten

/-- The md5 sine-derived round constants (RFC 1321). -/
def md5K : List Nat :=
  [0xd76aa478, 0xe8c7b756, 0x242070db, 0xc1bdceee,
   0xf57c0faf, 0x4787c62a, 0xa8304613, 0xfd469501,
   0x698098d8, 0x8b44f7af, 0xffff5bb1, 0x895cd7be,
   0x6b901122, 0xfd987193, 0xa679438e, 0x49b40821,
   0xf61e2562, 0xc040b340, 0x265e5a51, 0xe9b6c7aa,
   0xd62f105d, 0x02441453, 0xd8a1e681, 0xe7d3fbc8,
   0x21e1cde6, 0xc33707d6, 0xf4d50d87, 0x455a14ed,
   0xa9e3e905, 0xfcefa3f8, 0x676f02d9, 0x8d2a4c8a,
   0xfffa3942, 0x8771f681, 0x6d9d6122, 0xfde5380c,
   0xa4beea44, 0x4bdecfa9, 0xf6bb4b60, 0xbebfbc70,
   0x289b7ec6, 0xeaa127fa, 0xd4ef3085, 0x04881d05,
   0xd9d4d039, 0xe6db99e5, 0x1fa27cf8, 0xc4ac5665,
   0xf4292244, 0x432aff97, 0xab9423a7, 0xfc93a039,
   0x655b59c3, 0x8f0ccc92, 0xffeff47d, 0x85845dd1,
   0x6fa87e4f, 0xfe2ce6e0, 0xa3014314, 0x4e0811a1,
   0xf7537e82, 0xbd3af235, 0x2ad7d2bb, 0xeb86d391]

/-- The md5 per-round left-rotation amounts. -/
def md5S : List Nat :=
  [7, 12, 17, 22, 7, 12, 17, 22, 7, 12, 17, 22, 7, 12, 17, 22,
   5, 9, 14, 20, 5, 9, 14, 20, 5, 9, 14, 20, 5, 9, 14, 20,
   4, 11, 16, 23, 4, 11, 16, 23, 4, 11, 16, 23, 4, 11, 16, 23,
   6, 10, 15, 21, 6, 10, 15, 21, 6, 10, 15, 21, 6, 10, 15, 21]

/-- 2 ^ 32, the 32-bit word modulus. -/
def w32 : Nat := 4294967296

/-- Bitwise complement on 32-bit words. -/
def not32 (x : Nat) : Nat := 4294967295 - x % w32

/-- Left rotation of a 32-bit word. -/
def rotl32 (x s : Nat) : Nat := ((x % w32) <<< s) % w32 ||| (x % w32) >>> (32 - s)

/-- The md5 nonlinear mixing function for round `i`. -/
def md5F (i b c d : Nat) : Nat :=
  if i < 16 then b &&& c ||| not32 b &&& d
  else if i < 32 then d &&& b ||| not32 d &&& c
  else if i < 48 then b ^^^ c ^^^ d
  else c ^^^ (b ||| not32 d)

/-- The md5 message-word index for round `i`. -/
def md5G (i : Nat) : Nat :=
  if i < 16 then i
  else if i < 32 then (5 * i + 1) % 16
  else if i < 48 then (3 * i + 5) % 16
  else (7 * i) % 16

/-- One md5 round: state `(a, b, c, d)`, round index `i`, message words `m`. -/
def md5Step (m : List Nat) (st : Nat × Nat × Nat × Nat) (i : Nat) : Nat × Nat × Nat × Nat :=
  let (a, b, c, d) := st
  let f := (md5F i b c d + a + md5K.getD i 0 + m.getD (md5G i) 0) % w32
  (d, (b + rotl32 f (md5S.getD i 0)) % w32, b, c)

/-- Little-endian 32-bit words of a 64-byte block. -/
def md5WordsOf : List Nat → List Nat
  | b0 :: b1 :: b2 :: b3 :: rest =>
      (b0 + 256 * b1 + 65536 * b2 + 16777216 * b3) :: md5WordsOf rest
  | _ => []

/-- Process one 64-byte block. -/
def md5Block (st : Nat × Nat × Nat × Nat) (block : List Nat) : Nat × Nat × Nat × Nat :=
  let m := md5WordsOf block
  let (a', b', c', d') := (List.range 64).foldl (md5Step m) st
  let (a, b, c, d) := st
  ((a + a') % w32, (b + b') % w32, (c + c') % w32, (d + d') % w32)

/-- Split a byte list into 64-byte chunks (fuelled structural recursion). -/
def chunks64 : Nat → List Nat → List (List Nat)
  | 0, _ => []
  | _, [] => []
  | fuel + 1, l => l.take 64 :: chunks64 fuel (l.drop 64)

/-- The four little-endian bytes of a 32-bit word. -/
def le4 (x : Nat) : List Nat := [x % 256, x / 256 % 256, x / 65536 % 256, x / 16777216 % 256]

/-- The eight little-endian bytes of a 64-bit length field. -/
def le8 (x : Nat) : List Nat := le4 (x % w32) ++ le4 (x / w32 % w32)

/-- md5 padding: `0x80`, zeros to 56 mod 64, then the bit length mod 2 ^ 64. -/
def md5Pad (msg : List Nat) : List Nat :=
  msg ++ [128] ++ List.replicate ((119 - msg.length % 64) % 64) 0
      ++ le8 (8 * msg.length % 18446744073709551616)

/-- The 16 digest bytes of a byte message. -/
def md5Bytes (msg : List Nat) : List Nat :=
  let padded := md5Pad msg
  let (a, b, c, d) := (chunks64 padded.length padded).foldl md5Block
    (0x67452301, 0xefcdab89, 0x98badcfe, 0x10325476)
  le4 a ++ le4 b ++ le4 c ++ le4 d

/-- Big-endian value of a byte list. -/
def beNat : List Nat → Nat
  | [] => 0
  | b :: t => b * 256 ^ t.length + beNat t

/-- The digest of a byte message as one natural number (hex digits read left to right). -/
def md5Nat (msg : List Nat) : Nat := beNat (md5Bytes msg)

/-- Lowercase hexadecimal digit. -/
def hexDigitChar (d : Nat) : Char := if d < 10 then Char.ofNat (48 + d) else Char.ofNat (87 + d)

/-- The `k` low hex digits of `n`, most significant first. -/
def hexChars : Nat → Nat → List Char
  | 0, _ => []
  | k + 1, n => hexChars k (n / 16) ++ [hexDigitChar (n % 16)]

/-- Python `hashlib.md5(s.encode("utf-8")).hexdigest()`. -/
def md5Hex (s : String) : String := String.mk (hexChars 32 (md5Nat (utf8Bytes s)))

/-! ### Python decimal integer rendering (`str(int)`) -/

/-- Little-endian decimal digits of `n` (fuelled; `fuel > n` is enough fuel). -/
def natDigitsAux : Nat → Nat → List Nat
  | 0, _ => []
  | fuel + 1, n => if n < 10 then [n] else n % 10 :: natDigitsAux fuel (n / 10)

/-- Decimal rendering of a natural number (Python `str` on a nonnegative int). -/
def natRepr (n : Nat) : String := String.mk ((natDigitsAux (n + 1) n).reverse.map Nat.digitChar)

/-- Python `str(int)`: decimal digits, `-` sign for negatives. -/
def intRepr (i : Int) : String := if i < 0 then "-" ++ natRepr i.natAbs else natRepr i.toNat

/-! ### `src/models.py` — `ValidationError` -/

/-- `src/models.py` — the finding record `ValidationError`. -/
structure ValidationError where
  row_number : Int
  column : String
  error_type : String
  description : String
  cell_link : String
  sheet_name : String := ""
  admin : String := ""
  deriving DecidableEq, Repr

/-- The hash preimage built in `ValidationError.uid`:
`f"{self.sheet_name}_{self.row_number}_{self.column}_{self.error_type}"`. -/
def ValidationError.rawId (e : ValidationError) : String :=
  e.sheet_name ++ "_" ++ intRepr e.row_number ++ "_" ++ e.column ++ "_" ++ e.error_type

/-- `ValidationError.uid`: md5 hex digest of `rawId`. -/
def ValidationError.uid (e : ValidationError) : String := md5Hex e.rawId

/-- Little-endian decimal value, the left inverse of `natDigitsAux`. -/
def valLE : List Nat → Nat
  | [] => 0
  | d :: t => d + 10 * valLE t

/-- Two findings differ in exactly one of the four identity fields. -/
def OneIdentityFieldDiffers (e₁ e₂ : ValidationError) : Prop :=
  (e₁.sheet_name ≠ e₂.sheet_name ∧ e₁.row_number = e₂.row_number ∧
    e₁.column = e₂.column ∧ e₁.error_type = e₂.error_type) ∨
  (e₁.sheet_name = e₂.sheet_name ∧ e₁.row_number ≠ e₂.row_number ∧
    e₁.column = e₂.column ∧ e₁.error_type = e₂.error_type) ∨
  (e₁.sheet_name = e₂.sheet_name ∧ e₁.row_number = e₂.row_number ∧
    e₁.column ≠ e₂.column ∧ e₁.error_type = e₂.error_type) ∨
  (e₁.sheet_name = e₂.sheet_name ∧ e₁.row_number = e₂.row_number ∧
    e₁.column = e₂.column ∧ e₁.error_type ≠ e₂.error_type)

/-- A family of findings that differ only in `row_number`. -/
def pigeonFinding (n : Nat) : ValidationError :=
  ⟨(n : Int), "Клиент", "empty", "", "", "Продажи", ""⟩

/-- The loop body of `BaseValidator._get_col_letter` (fuelled; the loop variable
strictly decreases, so fuel `n` suffices for start value `n`). -/
def get_col_letter_go : Nat → Nat → String
  | 0, _ => ""
  | _ + 1, 0 => ""
  | fuel + 1, n + 1 => get_col_letter_go fuel (n / 26) ++ String.mk [Char.ofNat (65 + n % 26)]

/-- `BaseValidator._get_col_letter`: zero-based column index to A1-style letters. -/
def get_col_letter (col_idx : Nat) : String := get_col_letter_go (col_idx + 1) (col_idx + 1)

/-- Modelled from the spec's words for comparison: "index+1, then repeatedly
`(n-1) mod 26` gives a letter and `n` becomes `(n-1) div 26`, prepending letters". -/
def columnLetterSpecGo : Nat → Nat → List Char → List Char
  | 0, _, acc => acc
  | fuel + 1, n, acc =>
      if n = 0 then acc
      else columnLetterSpecGo fuel ((n - 1) / 26) (Char.ofNat (65 + (n - 1) % 26) :: acc)

/-- The spec-side column-letter scheme. -/
def columnLetterSpec (index : Nat) : String :=
  String.mk (columnLetterSpecGo (index + 1) (index + 1) [])



/-! ### `src/report_manager.py` — `ReportItem` and `ReportManager` -/

/-- Spreadsheet cell value at the data boundary (Python's dynamic typing):
a string, a number (int/float modelled as `ℚ`), or a boolean. -/
inductive Cell where
  | str (s : String)
  | num (q : ℚ)
  | bool (b : Bool)
  deriving DecidableEq, Repr

/-- `src/report_manager.py` — the dataclass `ReportItem`. -/
structure ReportItem where
  uid : String
  is_manual : Bool
  sheet : String
  error_column : String
  description : String
  link : String
  created_date : String := ""
  admin : String := ""
  deriving DecidableEq, Repr

/-- `ReportItem.to_row`: the rendered report row
`[uid, is_manual, created_date, sheet, error_column, admin, description, link]`;
an `http` link is wrapped into a HYPERLINK formula. -/
def ReportItem.to_row (r : ReportItem) : List Cell :=
  let link_val :=
    if r.link ≠ "" ∧ "http".data.isPrefixOf r.link.data then
      "=HYPERLINK(\"" ++ r.link ++ "\"; \"Посмотреть\")"
    else r.link
  [.str r.uid, .bool r.is_manual, .str r.created_date, .str r.sheet,
   .str r.error_column, .str r.admin, .str r.description, .str link_val]

/-- Python dict assignment `m[k] = v` on an association list: overwrite in place
when the key is present (keeping its position), else append. -/
def dictInsert {β : Type} (m : List (String × β)) (k : String) (v : β) :
    List (String × β) :=
  if m.any (fun p => p.1 == k) then m.map (fun p => if p.1 == k then (k, v) else p)
  else m ++ [(k, v)]

/-- Python dict lookup (`m.get(k)` / `k in m` with `some`): the entry with key `k`. -/
def dictGet {β : Type} (m : List (String × β)) (k : String) : Option β :=
  (m.find? (fun p => p.1 == k)).map (fun p => p.2)

/-- `{e.uid: e for e in new_errors}` with Python dict-comprehension semantics:
first occurrence fixes the position, the last occurrence the value. -/
def errorsByUid (l : List ValidationError) : List (String × ValidationError) :=
  l.foldl (fun m e => dictInsert m e.uid e) []

/-- One row's contribution in `ReportManager.parse_existing_report`: rows shorter
than 5 cells are skipped; the manual flag is read from cell 1; a row with empty
id cell is dropped unless manual, in which case a synthetic uid
`md5("manual_" + row[2] + "_" + row[5])` is generated. (In the Python list
literal `["TRUE", "True", "true", True, "Вручную"]` the bool `True` can never
equal a string cell, so it is omitted here.) -/
def parseReportRow (row : List String) : Option (String × ReportItem) :=
  if row.length < 5 then none
  else
    let uid₀ := row.getD 0 ""
    let is_manual_cell := row.getD 1 ""
    let is_manual := is_manual_cell == "TRUE" || is_manual_cell == "True" ||
      is_manual_cell == "true" || is_manual_cell == "Вручную"
    if uid₀ = "" ∧ ¬ is_manual then none
    else
      let uid := if uid₀ = "" then
          md5Hex ("manual_" ++ row.getD 2 "" ++ "_" ++ row.getD 5 "")
        else uid₀
      some (uid,
        { uid := uid
          is_manual := is_manual
          created_date := row.getD 2 ""
          sheet := row.getD 3 ""
          error_column := row.getD 4 ""
          admin := row.getD 5 ""
          description := row.getD 6 ""
          link := row.getD 7 "" })

/-- `ReportManager.parse_existing_report`: skip the header row when its first
cell is `"ID"`, then accumulate parsed rows into a dict keyed by uid. -/
def parse_existing_report (rows : List (List String)) : List (String × ReportItem) :=
  match rows with
  | [] => []
  | r0 :: _ =>
      let start_idx := if r0 ≠ [] ∧ r0.headD "" = "ID" then 1 else 0
      (rows.drop start_idx).foldl
        (fun items row =>
          match parseReportRow row with
          | some (k, item) => dictInsert items k item
          | none => items) []

/-- The in-place update applied in `reconcile` to an existing item whose uid
matched the finding `e`: refresh description, link, column, sheet and admin. -/
def refreshItem (item : ReportItem) (e : ValidationError) : ReportItem :=
  { item with
    description := e.description
    link := e.cell_link
    error_column := e.column
    sheet := e.sheet_name
    admin := e.admin }

/-- Step 1 of `ReportManager.reconcile`: walk the existing items in dict order;
a matched item is kept refreshed and its uid is deleted from the pending map,
an unmatched manual item is kept unchanged, an unmatched non-manual item is
dropped. Returns the kept items and the remaining pending map. -/
def reconcileLoop :
    List (String × ReportItem) → List (String × ValidationError) →
      List ReportItem × List (String × ValidationError)
  | [], m => ([], m)
  | (uid, item) :: rest, m =>
      match dictGet m uid with
      | some e =>
          let r := reconcileLoop rest (m.filter (fun p => !(p.1 == uid)))
          (refreshItem item e :: r.1, r.2)
      | none =>
          if item.is_manual then
            let r := reconcileLoop rest m
            (item :: r.1, r.2)
          else reconcileLoop rest m

/-- Zero-padded two-digit rendering (`%d`, `%m`). -/
def pad2 (n : Nat) : String := if n < 10 then "0" ++ natRepr n else natRepr n

/-- Zero-padded four-digit rendering (`%Y`). -/
def pad4 (n : Nat) : String :=
  if n < 10 then "000" ++ natRepr n
  else if n < 100 then "00" ++ natRepr n
  else if n < 1000 then "0" ++ natRepr n
  else natRepr n

/-- `datetime.now().strftime("%d.%m.%Y")` for the ambient date `(d, m, y)`. -/
def strftimeDMY (d m y : Nat) : String := pad2 d ++ "." ++ pad2 m ++ "." ++ pad4 y

/-- The fresh `ReportItem` created in `reconcile` for a still-pending finding. -/
def newReportItem (today : String) (uid : String) (e : ValidationError) : ReportItem :=
  { uid := uid
    is_manual := false
    created_date := today
    sheet := e.sheet_name
    error_column := e.column
    admin := e.admin
    description := e.description
    link := e.cell_link }

/-- Python `str.split(sep)` for a one-character separator at the char level. -/
def splitChar (sep : Char) : List Char → List (List Char)
  | [] => [[]]
  | c :: rest =>
      let r := splitChar sep rest
      if c == sep then [] :: r
      else match r with
        | h :: t => (c :: h) :: t
        | [] => [[c]]

/-- Characters stripped by Python `int(str)` (common whitespace; exotic Unicode
whitespace is outside the model). -/
def pyWS (c : Char) : Bool :=
  c == ' ' || c == '\t' || c == '\n' || c == '\r' ||
  c == '\x0b' || c == '\x0c' || c == '\xa0'

/-- Strip leading and trailing whitespace. -/
def pyStripChars (cs : List Char) : List Char :=
  ((cs.dropWhile pyWS).reverse.dropWhile pyWS).reverse

/-- Value of an ASCII digit. -/
def digitVal (c : Char) : Nat := c.toNat - 48

/-- Digits of a Python int literal after the first: ASCII digits with single
underscores allowed between digits. (Non-ASCII Unicode digits are outside the
model.) -/
def digitsValAux : Nat → List Char → Option Nat
  | acc, [] => some acc
  | acc, '_' :: c :: rest =>
      if c.isDigit then digitsValAux (acc * 10 + digitVal c) rest else none
  | _, ['_'] => none
  | acc, c :: rest =>
      if c.isDigit then digitsValAux (acc * 10 + digitVal c) rest else none

/-- A nonempty digit group. -/
def digitsVal : List Char → Option Nat
  | [] => none
  | c :: rest => if c.isDigit then digitsValAux (digitVal c) rest else none

/-- Python `int(str)`: strip whitespace, optional sign, digit group; `none`
models the `ValueError`. -/
def pyInt (s : String) : Option Int :=
  match pyStripChars s.data with
  | '+' :: rest => (digitsVal rest).map (fun n => (n : Int))
  | '-' :: rest => (digitsVal rest).map (fun n => -(n : Int))
  | rest => (digitsVal rest).map (fun n => (n : Int))

/-- The date component of `sort_key`: split `created_date` on `'.'`; with exactly
three parts, `int(parts[2] + parts[1] + parts[0])`; any failure yields 0. -/
def dateSortVal (s : String) : Int :=
  let parts := splitChar '.' s.data
  if parts.length == 3 then
    match pyInt (String.mk (parts.getD 2 [] ++ parts.getD 1 [] ++ parts.getD 0 [])) with
    | some n => n
    | none => 0
  else 0

/-- The fixed sheet priority table `SHEET_ORDER` with default 99. -/
def sheetOrderVal (s : String) : Nat :=
  if s == "Продажи" then 0
  else if s == "Тренировки" then 1
  else if s == "Обращения" then 2
  else 99

/-- `sort_key(item)`: the composite key (date value, sheet priority, error
column), compared lexicographically as Python compares tuples. -/
def sortKey (it : ReportItem) : Int ×ₗ (Nat ×ₗ String) :=
  toLex (dateSortVal it.created_date, toLex (sheetOrderVal it.sheet, it.error_column))

/-- The Boolean comparison used for sorting. -/
def itemLE (a b : ReportItem) : Bool := decide (sortKey a ≤ sortKey b)

/-- `ReportManager.reconcile` before the final sort: kept existing items
(matched refreshed, unmatched manual) followed by fresh items for the
still-pending findings, in pending-map order. The ambient date is the
parameter triple `(nowD, nowM, nowY)`. -/
def reconcilePre (nowD nowM nowY : Nat) (existing : List (String × ReportItem))
    (new_errors : List ValidationError) : List ReportItem :=
  let r := reconcileLoop existing (errorsByUid new_errors)
  r.1 ++ r.2.map (fun p => newReportItem (strftimeDMY nowD nowM nowY) p.1 p.2)

/-- `ReportManager.reconcile`: the active list, sorted by `sort_key` with a
stable sort (Python `list.sort` is stable; any stable sort by the same key
produces the same list, here `List.mergeSort`). -/
def reconcile (nowD nowM nowY : Nat) (existing : List (String × ReportItem))
    (new_errors : List ValidationError) : List ReportItem :=
  (reconcilePre nowD nowM nowY existing new_errors).mergeSort itemLE



/-! ### Cell helpers and value parsers (`src/utils.py`) -/

/-- Python truthiness of a cell value. -/
def Cell.falsy : Cell → Bool
  | .str s => s == ""
  | .num q => q == 0
  | .bool b => !b

/-- Python `==` between cell values (`True == 1` and `False == 0` hold across
bool/number; strings never equal non-strings). -/
def pyCellEq : Cell → Cell → Bool
  | .str a, .str b => a == b
  | .num a, .num b => a == b
  | .bool a, .bool b => a == b
  | .num a, .bool b => a == (if b then (1 : ℚ) else 0)
  | .bool a, .num b => (if a then (1 : ℚ) else 0) == b
  | _, _ => false

/-- Python `cell == "literal"`. -/
def cEqS (c : Cell) (s : String) : Bool := pyCellEq c (.str s)

/-- Python `str()` of a cell. For numbers the rendering is an approximation of
float repr (numeric cells reach `str()` only in comparisons with non-numeric
literals and in description text in the embedded rules). -/
def cellStr : Cell → String
  | .str s => s
  | .bool b => if b then "True" else "False"
  | .num q => if q.den = 1 then intRepr q.num ++ ".0"
      else intRepr q.num ++ "/" ++ natRepr q.den

/-- Python `str.strip()` (common whitespace incl. NBSP). -/
def pyStrip (s : String) : String := String.mk (pyStripChars s.data)

/-- Python `str.lower()` for ASCII and Cyrillic letters (the alphabets appearing
in the rules). -/
def pyLowerChar (c : Char) : Char :=
  if 'A' ≤ c ∧ c ≤ 'Z' then Char.ofNat (c.toNat + 32)
  else if 0x410 ≤ c.toNat ∧ c.toNat ≤ 0x42F then Char.ofNat (c.toNat + 32)
  else if c.toNat = 0x401 then Char.ofNat 0x451
  else c

/-- Python `str.upper()` for ASCII and Cyrillic letters. -/
def pyUpperChar (c : Char) : Char :=
  if 'a' ≤ c ∧ c ≤ 'z' then Char.ofNat (c.toNat - 32)
  else if 0x430 ≤ c.toNat ∧ c.toNat ≤ 0x44F then Char.ofNat (c.toNat - 32)
  else if c.toNat = 0x451 then Char.ofNat 0x401
  else c

/-- `str.lower()`. -/
def pyLower (s : String) : String := String.mk (s.data.map pyLowerChar)

/-- `str.upper()`. -/
def pyUpper (s : String) : String := String.mk (s.data.map pyUpperChar)

/-- `needle` is a prefix of `hay`. -/
def listStarts : List Char → List Char → Bool
  | [], _ => true
  | _ :: _, [] => false
  | a :: t, b :: r => a == b && listStarts t r

/-- `needle` occurs contiguously in `hay`. -/
def listInfix (needle : List Char) : List Char → Bool
  | [] => listStarts needle []
  | b :: r => listStarts needle (b :: r) || listInfix needle r

/-- Python `needle in hay` (contiguous substring). -/
def strContains (needle hay : String) : Bool := listInfix needle.data hay.data

/-- Gregorian leap year. -/
def isLeap (y : Int) : Bool := y % 4 == 0 && (y % 100 != 0 || y % 400 == 0)

/-- Days in a month of the proleptic Gregorian calendar. -/
def daysInMonth (y : Int) (m : Nat) : Nat :=
  if m = 2 then (if isLeap y then 29 else 28)
  else if m = 4 ∨ m = 6 ∨ m = 9 ∨ m = 11 then 30 else 31

/-- Days from 1970-01-01 to `y-m-d` in the proleptic Gregorian calendar. -/
def daysFromCivil (y : Int) (m d : Nat) : Int :=
  let yy : Int := y - (if m ≤ 2 then 1 else 0)
  let era : Int := (if 0 ≤ yy then yy else yy - 399) / 400
  let yoe : Int := yy - era * 400
  let mp : Int := ((m : Int) + 9) % 12
  let doy : Int := (153 * mp + 2) / 5 + (d : Int) - 1
  let doe : Int := yoe * 365 + yoe / 4 - yoe / 100 + doy
  era * 146097 + doe - 719468

/-- The spreadsheet serial-date value of `y-m-d`: days since 1899-12-30. -/
def dateToSerial (y : Int) (m d : Nat) : Int := daysFromCivil y m d + 25569

/-- `strptime` `%d` field (the regex `3[01]|[12]\x5cd|0[1-9]|[1-9]`), candidates
in greedy order with backtracking. -/
def pDay : List Char → List (Nat × List Char)
  | a :: b :: r =>
      (if (a = '3' ∧ (b = '0' ∨ b = '1')) ∨ ((a = '1' ∨ a = '2') ∧ b.isDigit) ∨
          (a = '0' ∧ '1' ≤ b ∧ b ≤ '9')
       then [(digitVal a * 10 + digitVal b, r)] else []) ++
      (if '1' ≤ a ∧ a ≤ '9' then [(digitVal a, b :: r)] else [])
  | [a] => if '1' ≤ a ∧ a ≤ '9' then [(digitVal a, [])] else []
  | [] => []

/-- `strptime` `%m` field (the regex `1[0-2]|0[1-9]|[1-9]`). -/
def pMonth : List Char → List (Nat × List Char)
  | a :: b :: r =>
      (if (a = '1' ∧ (b = '0' ∨ b = '1' ∨ b = '2')) ∨ (a = '0' ∧ '1' ≤ b ∧ b ≤ '9')
       then [(digitVal a * 10 + digitVal b, r)] else []) ++
      (if '1' ≤ a ∧ a ≤ '9' then [(digitVal a, b :: r)] else [])
  | [a] => if '1' ≤ a ∧ a ≤ '9' then [(digitVal a, [])] else []
  | [] => []

/-- `strptime` `%Y` field (exactly four digits). -/
def pYear4 : List Char → List (Nat × List Char)
  | a :: b :: c :: d :: r =>
      if a.isDigit ∧ b.isDigit ∧ c.isDigit ∧ d.isDigit then
        [(digitVal a * 1000 + digitVal b * 100 + digitVal c * 10 + digitVal d, r)]
      else []
  | _ => []

/-- First successful alternative (regex backtracking). -/
def firstValid {α β : Type} : List α → (α → Option β) → Option β
  | [], _ => none
  | a :: t, f =>
      match f a with
      | some b => some b
      | none => firstValid t f

/-- A literal character in a `strptime` pattern. -/
def pLit (c : Char) : List Char → Option (List Char)
  | x :: r => if x = c then some r else none
  | [] => none

/-- The `datetime` constructor's validity check (`ValueError` on a bad day). -/
def checkDate (y : Int) (m d : Nat) : Option (Int × Nat × Nat) :=
  if 1 ≤ y ∧ d ≤ daysInMonth y m then some (y, m, d) else none

/-- `strptime(s, "%d<sep>%m<sep>%Y")`. -/
def pFmtDMY (sep : Char) (cs : List Char) : Option (Int × Nat × Nat) :=
  firstValid (pDay cs) (fun p =>
    (pLit sep p.2).bind (fun r2 =>
      firstValid (pMonth r2) (fun q =>
        (pLit sep q.2).bind (fun r4 =>
          firstValid (pYear4 r4) (fun y =>
            if y.2 = [] then checkDate (y.1 : Int) q.1 p.1 else none)))))

/-- `strptime(s, "%Y-%m-%d")`. -/
def pFmtYMD (cs : List Char) : Option (Int × Nat × Nat) :=
  firstValid (pYear4 cs) (fun y =>
    (pLit '-' y.2).bind (fun r2 =>
      firstValid (pMonth r2) (fun q =>
        (pLit '-' q.2).bind (fun r4 =>
          firstValid (pDay r4) (fun p =>
            if p.2 = [] then checkDate (y.1 : Int) q.1 p.1 else none)))))

/-- `strptime(s, "%d.%m")`: the default year is 1900, so validity (e.g. Feb 29)
is checked against 1900 before the year is replaced by the current year. -/
def pFmtDM (cs : List Char) : Option (Nat × Nat) :=
  firstValid (pDay cs) (fun p =>
    (pLit '.' p.2).bind (fun r2 =>
      firstValid (pMonth r2) (fun q =>
        if q.2 = [] then
          (if p.1 ≤ daysInMonth 1900 q.1 then some (p.1, q.1) else none)
        else none)))

/-- `src/utils.py` — `parse_date_value`: serial-date numbers pass through
(`datetime(1899,12,30) + timedelta(days=val)`, with `True` a 1-day delta);
strings keep only the token after the last space and are tried against
`%d.%m.%Y`, `%Y-%m-%d`, `%d/%m/%Y`, `%d.%m` in that order. The result is the
serial value (days since 1899-12-30, midnight = whole number) as `ℚ`;
`curYear` models `datetime.now().year`. -/
def parse_date_value (val : Cell) (curYear : Int) : Option ℚ :=
  if val.falsy then none
  else match val with
  | .num q => some q
  | .bool _ => some 1
  | .str s =>
      let clean := ((splitChar ' ' s.data).getLast?).getD []
      match pFmtDMY '.' clean with
      | some (y, m, d) => some ((dateToSerial y m d : Int) : ℚ)
      | none =>
        match pFmtYMD clean with
        | some (y, m, d) => some ((dateToSerial y m d : Int) : ℚ)
        | none =>
          match pFmtDMY '/' clean with
          | some (y, m, d) => some ((dateToSerial y m d : Int) : ℚ)
          | none =>
            match pFmtDM clean with
            | some (d, m) => some ((dateToSerial curYear m d : Int) : ℚ)
            | none => none

/-- A digit group of a Python numeric literal: value, digit count, rest.
Fails on misplaced underscores. -/
def dgAux : Nat → Nat → List Char → Option (Nat × Nat × List Char)
  | acc, n, [] => some (acc, n, [])
  | acc, n, '_' :: c :: rest =>
      if c.isDigit then dgAux (acc * 10 + digitVal c) (n + 1) rest else none
  | _, _, ['_'] => none
  | acc, n, c :: rest =>
      if c.isDigit then dgAux (acc * 10 + digitVal c) (n + 1) rest
      else some (acc, n, c :: rest)

/-- A nonempty digit group. -/
def digitsGroup : List Char → Option (Nat × Nat × List Char)
  | c :: rest => if c.isDigit then dgAux (digitVal c) 1 rest else none
  | [] => none

/-- Exponent suffix of a Python float literal. -/
def pyFloatExp (mant : ℚ) (cs : List Char) : Option ℚ :=
  let p : Int × List Char :=
    match cs with
    | '+' :: r => (1, r)
    | '-' :: r => (-1, r)
    | r => (1, r)
  match digitsGroup p.2 with
  | some (ev, _, rest) =>
      if rest = [] then some (mant * (10 : ℚ) ^ (p.1 * (ev : Int))) else none
  | none => none

/-- After `"<int>."`: optional fraction digits, optional exponent. -/
def pyFloatFrac (iv : Nat) (cs : List Char) : Option ℚ :=
  match cs with
  | [] => some (iv : ℚ)
  | 'e' :: r => pyFloatExp (iv : ℚ) r
  | 'E' :: r => pyFloatExp (iv : ℚ) r
  | c :: _ =>
      if c.isDigit then
        match digitsGroup cs with
        | some (fv, fn, rest) =>
            let q : ℚ := (iv : ℚ) + (fv : ℚ) / (10 : ℚ) ^ fn
            match rest with
            | [] => some q
            | 'e' :: r => pyFloatExp q r
            | 'E' :: r => pyFloatExp q r
            | _ => none
        | none => none
      else none

/-- Magnitude of a Python float literal (decimal forms with optional exponent;
`inf`/`nan` are outside the model). -/
def pyFloatMag (cs : List Char) : Option ℚ :=
  match cs with
  | '.' :: rest2 =>
      (match digitsGroup rest2 with
      | some (fv, fn, rest3) =>
          let q : ℚ := (fv : ℚ) / (10 : ℚ) ^ fn
          (match rest3 with
          | [] => some q
          | 'e' :: r => pyFloatExp q r
          | 'E' :: r => pyFloatExp q r
          | _ => none)
      | none => none)
  | c :: _ =>
      if c.isDigit then
        match digitsGroup cs with
        | some (iv, _, rest) =>
            (match rest with
            | '.' :: rest2 => pyFloatFrac iv rest2
            | 'e' :: rest2 => pyFloatExp (iv : ℚ) rest2
            | 'E' :: rest2 => pyFloatExp (iv : ℚ) rest2
            | [] => some (iv : ℚ)
            | _ => none)
        | none => none
      else none
  | [] => none

/-- Python `float(str)`: strip, optional sign, magnitude. -/
def pyFloatStr (s : String) : Option ℚ :=
  match pyStripChars s.data with
  | '+' :: r => pyFloatMag r
  | '-' :: r => (pyFloatMag r).map (fun q => -q)
  | r => pyFloatMag r

/-- `src/utils.py` — `parse_float`: empty → 0, numbers/bools pass through,
strings are cleaned (spaces, NBSP, `%` removed, comma → dot) and parsed,
unparseable → 0. -/
def parse_float (val : Cell) : ℚ :=
  match val with
  | .num q => q
  | .bool b => if b then 1 else 0
  | .str s =>
      if s = "" then 0
      else
        let cs := (((s.data.filter (fun c => c != ' ')).map
            (fun c => if c = ',' then '.' else c)).filter
              (fun c => c != '\xa0')).filter (fun c => c != '%')
        (pyFloatStr (String.mk cs)).getD 0

/-- `src/utils.py` — `parse_discount`: like `parse_float`, but a `%` in the
original string divides the parsed number by 100. -/
def parse_discount (val : Cell) : ℚ :=
  match val with
  | .num q => q
  | .bool b => if b then 1 else 0
  | .str s =>
      if s = "" then 0
      else
        let is_percent := s.data.any (fun c => c == '%')
        let cs := (((s.data.filter (fun c => c != ' ')).map
            (fun c => if c = ',' then '.' else c)).filter
              (fun c => c != '\xa0')).filter (fun c => c != '%')
        match pyFloatStr (String.mk cs) with
        | some q => if is_percent then q / 100 else q
        | none => 0

/-- Round half to even (Python float formatting rounds the binary double;
this models the exact-rational analogue). -/
def roundHalfEvenQ (q : ℚ) : Int :=
  let f := Rat.floor q
  let frac := q - (f : ℚ)
  if frac > 1 / 2 then f + 1
  else if frac < 1 / 2 then f
  else (if f % 2 = 0 then f else f + 1)

/-- `f"{q:.2f}"`. -/
def format2 (q : ℚ) : String :=
  let c := roundHalfEvenQ (q * 100)
  let a := c.natAbs
  (if c < 0 then "-" else "") ++ natRepr (a / 100) ++ "." ++ pad2 (a % 100)

/-- Insert a space every three characters of the reversed digit stream. -/
def g3aux : List Char → Nat → List Char
  | [], _ => []
  | c :: r, n =>
      if n ≠ 0 ∧ n % 3 = 0 then ' ' :: c :: g3aux r (n + 1)
      else c :: g3aux r (n + 1)

/-- `src/utils.py` — `format_money`: thousands separated by spaces, decimal
comma, two decimals. -/
def formatMoney (q : ℚ) : String :=
  let c := roundHalfEvenQ (q * 100)
  let a := c.natAbs
  let grouped := ((g3aux (natRepr (a / 100)).data.reverse 0).reverse)
  (if c < 0 then "-" else "") ++ String.mk grouped ++ "," ++ pad2 (a % 100)

/-- The percentage rendering in the math-error description:
`f"{rate*100:.2f}".replace(".", ",") + "%"`. -/
def pctFmt (rate : ℚ) : String :=
  String.mk ((format2 (rate * 100)).data.map (fun c => if c = '.' then ',' else c)) ++ "%"

/-! ### `src/validators/base.py` — the cell accessor and the driver -/

/-- The sheet-level context a validator is constructed with. -/
structure SheetCtx where
  data : List (List Cell)
  required_columns : List String
  spreadsheet_id : String
  sheet_name : String
  sheet_id : Int
  deriving DecidableEq, Repr

/-- `self.headers = data[0] if data else []`. -/
def headersOf (v : SheetCtx) : List Cell := v.data.headD []

/-- Python `enumerate`. -/
def pyEnum {α : Type} : Nat → List α → List (Nat × α)
  | _, [] => []
  | n, a :: t => (n, a) :: pyEnum (n + 1) t

/-- Dict assignment keyed by cell values under Python equality. -/
def cellDictInsert (m : List (Cell × Nat)) (k : Cell) (v : Nat) : List (Cell × Nat) :=
  if m.any (fun p => pyCellEq p.1 k) then
    m.map (fun p => if pyCellEq p.1 k then (k, v) else p)
  else m ++ [(k, v)]

/-- `BaseValidator._map_columns`: resolve every required column against the
header row (first occurrence), then add every other header under its own
name. -/
def map_columns (headers : List Cell) (required : List String) : List (Cell × Nat) :=
  let step1 := required.foldl (fun ind col =>
    match headers.findIdx? (fun h => pyCellEq h (.str col)) with
    | some i => cellDictInsert ind (.str col) i
    | none => ind) []
  (pyEnum 0 headers).foldl (fun ind p =>
    if ind.any (fun q => pyCellEq q.1 p.2) then ind else ind ++ [(p.2, p.1)]) step1

/-- `self.column_indices.get(col_name)`. -/
def colIndexOf (v : SheetCtx) (name : String) : Option Nat :=
  ((map_columns (headersOf v) v.required_columns).find?
    (fun p => pyCellEq p.1 (.str name))).map (fun p => p.2)

/-- `BaseValidator._get_val`: empty string for unknown columns or short rows,
strings stripped. -/
def get_val (v : SheetCtx) (row : List Cell) (name : String) : Cell :=
  match colIndexOf v name with
  | some idx =>
      if idx < row.length then
        match row.getD idx (.str "") with
        | .str s => .str (pyStrip s)
        | c => c
      else .str ""
  | none => .str ""

/-- `BaseValidator._generate_link`. -/
def generate_link (v : SheetCtx) (row_idx : Nat) (col_name : Option String) : String :=
  let range_str :=
    match col_name with
    | some cn =>
        if cn ≠ "" then
          match colIndexOf v cn with
          | some ci => get_col_letter ci ++ natRepr (row_idx + 1)
          | none => "A" ++ natRepr (row_idx + 1)
        else "A" ++ natRepr (row_idx + 1)
    | none => "A" ++ natRepr (row_idx + 1)
  "https://docs.google.com/spreadsheets/d/" ++ v.spreadsheet_id ++ "/edit#gid="
    ++ intRepr v.sheet_id ++ "&range=" ++ range_str

/-- `BaseValidator.validate`, generic in the per-row rule: empty data yields no
findings; the first required column missing from the index map yields exactly
the one structural finding and stops; otherwise every data row (1-based) is
scanned and the findings accumulated. -/
def validateWith (v : SheetCtx)
    (rowRule : SheetCtx → Nat → List Cell → List ValidationError) :
    List ValidationError :=
  if v.data = [] then []
  else
    match v.required_columns.find? (fun c => (colIndexOf v c).isNone) with
    | some c =>
        [ValidationError.mk 0 c "missing_column" "Колонка не найдена" "" v.sheet_name ""]
    | none => (pyEnum 1 (v.data.drop 1)).flatMap (fun p => rowRule v p.1 p.2)



/-! ### `src/validators/sales.py` — `SalesValidator.validate_row` -/

/-- The bodies of sales rule sections 0.1–6, entered only after the date guard.
`todayD` is today's serial date at midnight, `curYear` the current year. -/
def salesRowChecks (v : SheetCtx) (row_idx : Nat) (row : List Cell)
    (admin : String) : List ValidationError :=
  let sheet_row_num := row_idx + 2
  let errs01 := v.required_columns.filterMap (fun col_name =>
    match get_val v row col_name with
    | .str s =>
        if strContains "уточнить" (pyLower s) then
          some (ValidationError.mk sheet_row_num col_name "clarify_needed"
            ("Требуется уточнение: " ++ s)
            (generate_link v (sheet_row_num - 1) (some col_name)) v.sheet_name admin)
        else none
    | _ => none)
  let client := get_val v row "Клиент"
  let product := get_val v row "Продукт"
  let evotor := get_val v row "Пробили на эвоторе"
  let crm := get_val v row "Внесли в CRM"
  let has_client := !client.falsy
  let has_product := !product.falsy
  let is_evotor :=
    match evotor with
    | .bool b => b
    | .str s => pyUpper s == "TRUE" || pyUpper s == "ИСТИНА"
    | _ => false
  let is_crm :=
    match crm with
    | .bool b => b
    | .str s => pyUpper s == "TRUE" || pyUpper s == "ИСТИНА"
    | _ => false
  if !(has_client || has_product || is_evotor || is_crm) then []
  else
    let training_type := get_val v row "Тип"
    let is_goods := cellStr training_type == "Товар"
    let payment_fields := ["Наличные", "Перевод", "Терминал", "Вдолг"]
    let errs2 := v.required_columns.filterMap (fun col_name =>
      if col_name = "Скидка" ∨ col_name = "Комментарий" ∨
          col_name ∈ payment_fields ∨
          col_name = "Бонус админа" ∨ col_name = "Бонус тренера" then none
      else if col_name = "Тренер" ∧
          (is_goods ∨ (cellStr training_type ≠ "Бассейн" ∧ cellStr training_type ≠ "Ванны"))
        then none
      else if get_val v row col_name = .str "" then
        some (ValidationError.mk sheet_row_num col_name "empty"
          ("Поле '" ++ col_name ++ "' должно быть заполнено")
          (generate_link v (sheet_row_num - 1) (some col_name)) v.sheet_name admin)
      else none)
    let full_price := parse_float (get_val v row "Полная стоимость")
    let discount_rate := parse_discount (get_val v row "Скидка")
    let final_price := parse_float (get_val v row "Окончательная стоимость")
    let calc_final := full_price * (1 - discount_rate)
    let errs3 :=
      if |calc_final - final_price| > 1 then
        [ValidationError.mk sheet_row_num "Окончательная стоимость" "math_error"
          ("Ошибка расчета: " ++ formatMoney full_price ++ " * (1 - "
            ++ pctFmt discount_rate ++ ") = " ++ formatMoney calc_final
            ++ ", а указано " ++ formatMoney final_price)
          (generate_link v (sheet_row_num - 1) (some "Окончательная стоимость"))
          v.sheet_name admin]
      else []
    let sum_pay := parse_float (get_val v row "Наличные")
      + parse_float (get_val v row "Перевод")
      + parse_float (get_val v row "Терминал")
      + parse_float (get_val v row "Вдолг")
    let errs4 :=
      if |sum_pay - final_price| > 1 then
        [ValidationError.mk sheet_row_num "Окончательная стоимость" "payment_error"
          ("Сумма оплаты (" ++ formatMoney sum_pay ++ ") не совпадает с ценой ("
            ++ formatMoney final_price ++ ")")
          (generate_link v (sheet_row_num - 1) (some "Окончательная стоимость"))
          v.sheet_name admin]
      else []
    let errs5 :=
      if is_goods then
        if is_crm then
          [ValidationError.mk sheet_row_num "Внесли в CRM" "process_error"
            "Для товаров 'Внесли в CRM' должно быть FALSE"
            (generate_link v (sheet_row_num - 1) (some "Внесли в CRM")) v.sheet_name admin]
        else []
      else
        (if final_price > 0 ∧ ¬ is_crm then
          [ValidationError.mk sheet_row_num "Внесли в CRM" "process_error"
            "Продажа не внесена в CRM"
            (generate_link v (sheet_row_num - 1) (some "Внесли в CRM")) v.sheet_name admin]
         else []) ++
        (if final_price > 0 ∧
            ¬ (strContains "долг" (pyLower (cellStr training_type)) ||
                strContains "долг" (pyLower (cellStr product))) ∧ ¬ is_evotor then
          [ValidationError.mk sheet_row_num "Пробили на эвоторе" "process_error"
            "Чек не пробит на Эвоторе"
            (generate_link v (sheet_row_num - 1) (some "Пробили на эвоторе")) v.sheet_name admin]
         else [])
    let comment := pyStrip (cellStr (get_val v row "Комментарий"))
    let product_lower := pyLower (cellStr product)
    let special :=
      if strContains "подарок" product_lower then
        some "Уточнить повод для подарка занятия"
      else if strContains "возврат абонемента" product_lower then
        some "Уточнить причину возврата абонемента"
      else if strContains "перерасчёт" product_lower ∨ strContains "перерасчет" product_lower then
        some "Уточнить причину перерасчёта"
      else if strContains "сертификат" product_lower then
        some "Уточнить информацию о сертификате"
      else none
    let errs6a :=
      match special with
      | some msg =>
          if comment = "" then
            [ValidationError.mk sheet_row_num "Комментарий" "empty" msg
              (generate_link v (sheet_row_num - 1) (some "Комментарий")) v.sheet_name admin]
          else []
      | none => []
    let errs6b :=
      if special = none ∧ discount_rate ≥ 99 / 100 ∧ comment = "" then
        [ValidationError.mk sheet_row_num "Комментарий" "empty"
          "При скидке 100% обязателен комментарий"
          (generate_link v (sheet_row_num - 1) (some "Комментарий")) v.sheet_name admin]
      else []
    errs01 ++ errs2 ++ errs3 ++ errs4 ++ errs5 ++ errs6a ++ errs6b

/-- `SalesValidator.validate_row`: rows whose date is missing/unparseable or
strictly in the future are skipped entirely; otherwise the rule sections run. -/
def salesValidateRow (v : SheetCtx) (todayD : Int) (curYear : Int)
    (row_idx : Nat) (row : List Cell) : List ValidationError :=
  let admin_val := get_val v row "Админ"
  let admin := if admin_val.falsy then "Уточнить" else pyStrip (cellStr admin_val)
  match parse_date_value (get_val v row "Дата") curYear with
  | none => []
  | some dt =>
      if dt > (todayD : ℚ) then []
      else salesRowChecks v row_idx row admin

/-! ### `src/validators/trainings.py` — `TrainingsValidator.validate_row` -/

/-- The status allow-list `VALID_STATUSES`. -/
def VALID_STATUSES : List String :=
  ["Администратор", "Отработано", "Отмена по вине центра", "Отмена по вине клиента",
   "Справка", "Пропуск без списания", "Пропуск", "Лояльный пропуск", "Перенос",
   "Смена", "Посетили"]

/-- The cancellation/no-show statuses. -/
def cancellationStatuses : List String :=
  ["Отмена по вине центра", "Пропуск без списания", "Пропуск", "Лояльный пропуск"]

/-- `TrainingsValidator._find_admin_on_duty`: scan the whole sheet for admin
shift rows on the same date and pick by category priority. -/
def findAdminOnDuty (v : SheetCtx) (date_val : Cell) : String :=
  if date_val.falsy then "Уточнить"
  else
    let candidates := (v.data.drop 1).filterMap (fun row =>
      if pyCellEq (get_val v row "Дата") date_val &&
          cEqS (get_val v row "Тип") "Администратор" &&
          cEqS (get_val v row "Клиент") "Администратор" then
        (let employee := get_val v row "Сотрудник"
         if !employee.falsy then some (employee, get_val v row "Категория") else none)
      else none)
    match candidates with
    | [] => "Уточнить"
    | c0 :: _ =>
        match candidates.find? (fun p => !p.2.falsy && strContains "Онлайн" (cellStr p.2)) with
        | some p => cellStr p.1
        | none =>
            match candidates.find?
                (fun p => !p.2.falsy && strContains "В центре" (cellStr p.2)) with
            | some p => cellStr p.1
            | none => cellStr c0.1

/-- The trainings rule sections 0.1–6, entered unless the future-date guard
fired. `dtO` is the parsed date. -/
def trainingsRowChecks (v : SheetCtx) (todayD : Int) (row_idx : Nat)
    (row : List Cell) (admin : String) (dtO : Option ℚ) : List ValidationError :=
  let sheet_row_num := row_idx + 1
  let client := get_val v row "Клиент"
  let status := get_val v row "Статус"
  let training_type := get_val v row "Тип"
  let start := get_val v row "Начало"
  let endV := get_val v row "Конец"
  let employee := get_val v row "Сотрудник"
  if cEqS client "Администратор" && cEqS status "Администратор" &&
      cEqS training_type "Администратор" &&
      start.falsy && endV.falsy && employee.falsy then []
  else
    let errs1 := v.required_columns.flatMap (fun col_name =>
      let val := get_val v row col_name
      if val.falsy && !(pyCellEq val (.num 0)) then
        if col_name = "Сотрудник" ∧ cEqS training_type "Администратор" = true ∧
            start.falsy = true ∧ endV.falsy = true then []
        else
          [ValidationError.mk sheet_row_num col_name "empty"
            (if col_name = "Начало" then "Отсутствует время начала смены"
             else if col_name = "Конец" then "Отсутствует время окончания смены"
             else if col_name = "Дата" then "Отсутствует дата"
             else if col_name = "Сотрудник" then
               (if cEqS training_type "Администратор" then "Не назначен администратор"
                else "Не назначен тренер")
             else "Поле '" ++ col_name ++ "' должно быть заполнено")
            (generate_link v row_idx (some col_name)) v.sheet_name admin]
      else
        (if col_name = "Дата" ∧ dtO = none then
          [ValidationError.mk sheet_row_num col_name "invalid_format"
            ("Значение '" ++ cellStr val ++ "' не является корректной датой")
            (generate_link v row_idx (some col_name)) v.sheet_name admin]
         else []) ++
        (if col_name = "Замена?" ∧
            ¬ (pyLower (cellStr val) = "да" ∨ pyLower (cellStr val) = "нет" ∨
               pyLower (cellStr val) = "yes" ∨ pyLower (cellStr val) = "no") then
          [ValidationError.mk sheet_row_num col_name "invalid_format"
            ("Значение '" ++ cellStr val ++ "' должно быть Да или Нет")
            (generate_link v row_idx (some col_name)) v.sheet_name admin]
         else []))
    let errs2 :=
      if !status.falsy then
        if cEqS status "Подтвердили" || cEqS status "Не подтвердили" then
          match dtO with
          | some q =>
              if q < (todayD : ℚ) then
                [ValidationError.mk sheet_row_num "Статус" "invalid_value"
                  ("Статус '" ++ cellStr status ++ "' недопустим для прошедших дат")
                  (generate_link v row_idx (some "Статус")) v.sheet_name admin]
              else []
          | none => []
        else if !(VALID_STATUSES.any (fun s => cEqS status s)) then
          [ValidationError.mk sheet_row_num "Статус" "invalid_value"
            ("Недопустимый статус: '" ++ cellStr status ++ "'")
            (generate_link v row_idx (some "Статус")) v.sheet_name admin]
        else []
      else []
    let errs3 :=
      if !client.falsy ∧ ¬ cEqS client "Администратор" = true then
        if ¬ cEqS status "Администратор" = true then
          if employee.falsy ∨ cEqS employee "" = true ∨ cEqS employee "Без тренера" = true then
            [ValidationError.mk sheet_row_num "Сотрудник" "empty"
              "Для клиента сотрудник обязателен и не может быть 'Без тренера'"
              (generate_link v row_idx (some "Сотрудник")) v.sheet_name admin]
          else []
        else []
      else []
    let comment := get_val v row "Комментарий"
    let errs5 :=
      if !comment.falsy ∧ strContains "#REF!" (cellStr comment) = true then
        [ValidationError.mk sheet_row_num "Комментарий" "formula_error"
          "Ошибка формулы в комментарии (#REF!)"
          (generate_link v row_idx (some "Комментарий")) v.sheet_name admin]
      else []
    let errs6 :=
      if cancellationStatuses.any (fun s => cEqS status s) then
        (let comment_str := pyStrip (cellStr comment)
         if comment_str = "" ∨ comment_str = "Указать причину пропуска" then
          [ValidationError.mk sheet_row_num "Комментарий" "empty"
            ("Для статуса '" ++ cellStr status ++ "' требуется указать причину пропуска")
            (generate_link v row_idx (some "Комментарий")) v.sheet_name admin]
         else [])
      else []
    errs1 ++ errs2 ++ errs3 ++ errs5 ++ errs6

/-- `TrainingsValidator.validate_row`: the admin is resolved by the date-based
whole-sheet lookup; a row with a parsed date strictly in the future is skipped;
rows with empty or unparseable dates are still validated. -/
def trainingsValidateRow (v : SheetCtx) (todayD : Int) (curYear : Int)
    (row_idx : Nat) (row : List Cell) : List ValidationError :=
  let date_val := get_val v row "Дата"
  let admin := findAdminOnDuty v date_val
  match parse_date_value date_val curYear with
  | some q =>
      if q > (todayD : ℚ) then []
      else trainingsRowChecks v todayD row_idx row admin (some q)
  | none => trainingsRowChecks v todayD row_idx row admin none

/-- Concrete trainings sheet for the evaluation theorems: one header row and
one data row whose date cell is empty. -/
def sampleTrainingsCtx : SheetCtx :=
  ⟨[[Cell.str "Дата"], [Cell.str ""]], ["Дата"], "S", "Тренировки", 0⟩

/-- Concrete sales sheet for the evaluation theorems. -/
def sampleSalesCtx : SheetCtx :=
  ⟨[[Cell.str "Дата"], [Cell.str ""]], ["Дата"], "S", "Продажи", 0⟩


/-! ### Facts about the hex rendering -/

theorem hexChars_length (k : Nat) : ∀ n, (hexChars k n).length = k := by
  induction k with
  | zero => intro n; rfl
  | succ k ih => intro n; simp [hexChars, ih]

theorem hexDigitChar_mem_alphabet :
    ∀ d < 16, hexDigitChar d ∈ ("0123456789abcdef").data := by decide

theorem hexChars_mem_alphabet (k : Nat) :
    ∀ n, ∀ c ∈ hexChars k n, c ∈ ("0123456789abcdef").data := by
  induction k with
  | zero => intro n c hc; simp [hexChars] at hc
  | succ k ih =>
      intro n c hc
      simp only [hexChars, List.mem_append, List.mem_singleton] at hc
      rcases hc with hc | rfl
      · exact ih _ c hc
      · exact hexDigitChar_mem_alphabet _ (Nat.mod_lt _ (by omega))

/-- **C1**: a finding's `uid` is a pure function of `sheet_name`, `row_number`,
`column` and `error_type` — findings agreeing on those four fields share the uid
whatever their `description`, `cell_link` and `admin` are — and every uid is a
string of exactly 32 lowercase hexadecimal characters. -/
theorem uid_determined_by_identity_fields :
    (∀ e₁ e₂ : ValidationError, e₁.sheet_name = e₂.sheet_name →
      e₁.row_number = e₂.row_number → e₁.column = e₂.column →
      e₁.error_type = e₂.error_type → e₁.uid = e₂.uid) ∧
    (∀ e : ValidationError,
      e.uid.length = 32 ∧ ∀ c ∈ e.uid.data, c ∈ ("0123456789abcdef").data) := by
  constructor
  · intro e₁ e₂ hs hr hc ht
    simp only [ValidationError.uid, ValidationError.rawId, hs, hr, hc, ht]
  · intro e
    refine ⟨?_, ?_⟩
    · show (String.mk (hexChars 32 _)).length = 32
      simp [String.length, hexChars_length]
    · intro c hc
      exact hexChars_mem_alphabet 32 _ c hc

/-- Witness for C1 at concrete findings that differ only in description, link
and admin. -/
theorem uid_determined_by_identity_fields_witness :
    (ValidationError.mk 7 "Клиент" "empty" "описание А" "ссылка А" "Продажи" "Ира").uid
      = (ValidationError.mk 7 "Клиент" "empty" "описание Б" "ссылка Б" "Продажи" "Оля").uid ∧
    (ValidationError.mk 7 "Клиент" "empty" "описание А" "ссылка А" "Продажи" "Ира").uid.length = 32 :=
  ⟨uid_determined_by_identity_fields.1 _ _ rfl rfl rfl rfl,
   (uid_determined_by_identity_fields.2 _).1⟩

/-! ### Injectivity of the decimal rendering -/

theorem natDigitsAux_val : ∀ fuel n, n < fuel → valLE (natDigitsAux fuel n) = n := by
  intro fuel
  induction fuel with
  | zero => intro n h; omega
  | succ f ih =>
      intro n h
      rw [natDigitsAux]
      split
      · simp [valLE]
      · rename_i h10
        rw [valLE, ih (n / 10) (by omega)]
        omega

theorem natDigitsAux_digit_lt : ∀ fuel n, ∀ d ∈ natDigitsAux fuel n, d < 10 := by
  intro fuel
  induction fuel with
  | zero => intro n d hd; simp [natDigitsAux] at hd
  | succ f ih =>
      intro n d hd
      rw [natDigitsAux] at hd
      split at hd
      · simp at hd; omega
      · rcases List.mem_cons.mp hd with rfl | hd
        · exact Nat.mod_lt _ (by omega)
        · exact ih _ d hd

theorem digitChar_inj_lt : ∀ d < 10, ∀ e < 10, Nat.digitChar d = Nat.digitChar e → d = e := by
  decide

theorem map_digitChar_inj :
    ∀ l₁ l₂ : List Nat, (∀ d ∈ l₁, d < 10) → (∀ d ∈ l₂, d < 10) →
      l₁.map Nat.digitChar = l₂.map Nat.digitChar → l₁ = l₂ := by
  intro l₁
  induction l₁ with
  | nil => intro l₂ _ _ h; cases l₂ <;> simp_all
  | cons a t ih =>
      intro l₂ h₁ h₂ h
      cases l₂ with
      | nil => simp at h
      | cons b u =>
          simp only [List.map_cons, List.cons.injEq] at h
          have hab : a = b :=
            digitChar_inj_lt a (h₁ a (by simp)) b (h₂ b (by simp)) h.1
          have : t = u := ih u (fun d hd => h₁ d (by simp [hd]))
            (fun d hd => h₂ d (by simp [hd])) h.2
          rw [hab, this]

theorem string_data_inj {s t : String} (h : s.data = t.data) : s = t := by
  cases s; cases t; exact congrArg String.mk h

theorem natRepr_inj {m n : Nat} (h : natRepr m = natRepr n) : m = n := by
  have hd : ((natDigitsAux (m + 1) m).reverse.map Nat.digitChar)
      = ((natDigitsAux (n + 1) n).reverse.map Nat.digitChar) := by
    simpa [natRepr] using congrArg String.data h
  have hrev : (natDigitsAux (m + 1) m).reverse = (natDigitsAux (n + 1) n).reverse :=
    map_digitChar_inj _ _
      (fun d hd => natDigitsAux_digit_lt _ _ d (List.mem_reverse.mp hd))
      (fun d hd => natDigitsAux_digit_lt _ _ d (List.mem_reverse.mp hd)) hd
  have hlists : natDigitsAux (m + 1) m = natDigitsAux (n + 1) n :=
    List.reverse_injective hrev
  have := natDigitsAux_val (m + 1) m (by omega)
  rw [hlists, natDigitsAux_val (n + 1) n (by omega)] at this
  omega

theorem natDigitsAux_ne_nil (n : Nat) : natDigitsAux (n + 1) n ≠ [] := by
  rw [natDigitsAux]
  split <;> simp

/-- The rendering of a natural number starts with a decimal digit (never `-`). -/
theorem natRepr_head_digit (n : Nat) :
    ∃ d < 10, ∃ t, (natRepr n).data = Nat.digitChar d :: t := by
  rcases hrev : (natDigitsAux (n + 1) n).reverse with _ | ⟨d, t⟩
  · exact absurd (by simpa using congrArg List.reverse hrev) (natDigitsAux_ne_nil n)
  · refine ⟨d, ?_, t.map Nat.digitChar, ?_⟩
    · exact natDigitsAux_digit_lt (n + 1) n d
        (List.mem_reverse.mp (by rw [hrev]; exact List.mem_cons_self d t))
    · simp [natRepr, hrev]

theorem digitChar_ne_dash : ∀ d < 10, Nat.digitChar d ≠ '-' := by decide

theorem intRepr_inj {i j : Int} (h : intRepr i = intRepr j) : i = j := by
  unfold intRepr at h
  split at h <;> split at h
  · -- both negative
    have : natRepr i.natAbs = natRepr j.natAbs := by
      apply string_data_inj
      have := congrArg String.data h
      simpa [String.data_append] using this
    have := natRepr_inj this
    omega
  · -- i negative, j nonnegative: impossible, '-' vs digit head
    exfalso
    obtain ⟨d, hd, t, ht⟩ := natRepr_head_digit j.toNat
    have := congrArg String.data h
    rw [String.data_append, ht] at this
    have : '-' = Nat.digitChar d := by simpa using congrArg List.head? this
    exact digitChar_ne_dash d hd this.symm
  · exfalso
    obtain ⟨d, hd, t, ht⟩ := natRepr_head_digit i.toNat
    have := congrArg String.data h
    rw [String.data_append, ht] at this
    have : Nat.digitChar d = '-' := by simpa using congrArg List.head? this
    exact digitChar_ne_dash d hd this
  · have := natRepr_inj h
    omega

/-! ### The digest space is finite: 2 ^ 128 values -/

theorem le4_mem_lt (x : Nat) : ∀ b ∈ le4 x, b < 256 := by
  intro b hb
  simp only [le4, List.mem_cons, List.not_mem_nil, or_false] at hb
  rcases hb with rfl | rfl | rfl | rfl <;> exact Nat.mod_lt _ (by omega)

theorem beNat_lt : ∀ l : List Nat, (∀ b ∈ l, b < 256) → beNat l < 256 ^ l.length := by
  intro l
  induction l with
  | nil => intro _; simp [beNat]
  | cons b t ih =>
      intro h
      have hb : b < 256 := h b (by simp)
      have ht : beNat t < 256 ^ t.length := ih (fun d hd => h d (by simp [hd]))
      have hmul : b * 256 ^ t.length ≤ 255 * 256 ^ t.length :=
        Nat.mul_le_mul_right _ (by omega)
      calc beNat (b :: t) = b * 256 ^ t.length + beNat t := rfl
        _ < 255 * 256 ^ t.length + 256 ^ t.length := by omega
        _ = 256 ^ (t.length + 1) := by ring
        _ = 256 ^ (b :: t).length := by simp

theorem md5Bytes_shape (msg : List Nat) :
    ∃ a b c d, md5Bytes msg = le4 a ++ le4 b ++ le4 c ++ le4 d := by
  rcases h : (chunks64 (md5Pad msg).length (md5Pad msg)).foldl md5Block
    (0x67452301, 0xefcdab89, 0x98badcfe, 0x10325476) with ⟨a, b, c, d⟩
  refine ⟨a, b, c, d, ?_⟩
  simp only [md5Bytes]
  rw [h]

theorem md5Bytes_bound (msg : List Nat) :
    (∀ b ∈ md5Bytes msg, b < 256) ∧ (md5Bytes msg).length = 16 := by
  obtain ⟨a, b, c, d, hs⟩ := md5Bytes_shape msg
  rw [hs]
  refine ⟨?_, by simp [le4]⟩
  intro x hx
  simp only [List.mem_append, or_assoc] at hx
  rcases hx with hx | hx | hx | hx <;>
    [exact le4_mem_lt a x hx; exact le4_mem_lt b x hx;
     exact le4_mem_lt c x hx; exact le4_mem_lt d x hx]

theorem md5Nat_lt (msg : List Nat) : md5Nat msg < 2 ^ 128 := by
  have h := beNat_lt (md5Bytes msg) (md5Bytes_bound msg).1
  rw [(md5Bytes_bound msg).2] at h
  calc md5Nat msg < 256 ^ 16 := h
    _ = 2 ^ 128 := by norm_num

/-- **C8** (counterexample): as stated over all findings the claim is false —
md5 digests take at most `2 ^ 128` values, so among `2 ^ 128 + 1` findings that
differ only in `row_number` two must share a uid. -/
theorem uid_sensitivity_counterexample :
    ¬ (∀ e₁ e₂ : ValidationError, OneIdentityFieldDiffers e₁ e₂ → e₁.uid ≠ e₂.uid) := by
  intro h
  have hcard : Fintype.card (Fin (2 ^ 128)) < Fintype.card (Fin (2 ^ 128 + 1)) := by
    simp only [Fintype.card_fin]
    exact Nat.lt_succ_self _
  obtain ⟨i, j, hne, heq⟩ := Fintype.exists_ne_map_eq_of_card_lt
    (fun i : Fin (2 ^ 128 + 1) =>
      (⟨md5Nat (utf8Bytes (pigeonFinding i.val).rawId), md5Nat_lt _⟩ : Fin (2 ^ 128)))
    hcard
  simp only [Fin.mk.injEq] at heq
  have hrow : (pigeonFinding i.val).row_number ≠ (pigeonFinding j.val).row_number := by
    intro hv
    exact hne (Fin.ext (Int.natCast_inj.mp hv))
  have huid : (pigeonFinding i.val).uid = (pigeonFinding j.val).uid := by
    simp only [ValidationError.uid, md5Hex, heq]
  have hdiff : OneIdentityFieldDiffers (pigeonFinding i.val) (pigeonFinding j.val) := by
    right; left
    exact ⟨rfl, hrow, rfl, rfl⟩
  exact h (pigeonFinding i.val) (pigeonFinding j.val) hdiff huid

/-- **C8** (amended): changing exactly one of the four identity fields always
changes the md5 *preimage* `rawId`; distinctness of the uids themselves is only
the operational no-collision assumption on md5. -/
theorem rawId_one_field_sensitivity (e₁ e₂ : ValidationError)
    (h : OneIdentityFieldDiffers e₁ e₂) : e₁.rawId ≠ e₂.rawId := by
  intro heq
  have hd := congrArg String.data heq
  simp only [ValidationError.rawId, String.data_append] at hd
  rcases h with ⟨hs, hr, hc, ht⟩ | ⟨hs, hr, hc, ht⟩ | ⟨hs, hr, hc, ht⟩ | ⟨hs, hr, hc, ht⟩
  · rw [hr, hc, ht] at hd
    exact hs (string_data_inj (List.append_cancel_right (List.append_cancel_right
      (List.append_cancel_right (List.append_cancel_right
        (List.append_cancel_right (List.append_cancel_right hd)))))))
  · rw [hs, hc, ht] at hd
    exact hr (intRepr_inj (string_data_inj (List.append_cancel_left
      (List.append_cancel_right (List.append_cancel_right
        (List.append_cancel_right (List.append_cancel_right hd)))))))
  · rw [hs, hr, ht] at hd
    exact hc (string_data_inj (List.append_cancel_left
      (List.append_cancel_right (List.append_cancel_right hd))))
  · rw [hs, hr, hc] at hd
    exact ht (string_data_inj (List.append_cancel_left hd))

/-- Witness for the amended C8 at concrete findings differing only in row. -/
theorem rawId_one_field_sensitivity_witness :
    (ValidationError.mk 1 "Клиент" "empty" "d" "l" "Продажи" "").rawId
      ≠ (ValidationError.mk 2 "Клиент" "empty" "d" "l" "Продажи" "").rawId :=
  rawId_one_field_sensitivity _ _ (Or.inr (Or.inl ⟨rfl, by decide, rfl, rfl⟩))


/-! ### `src/validators/base.py` — `_get_col_letter` -/

theorem string_mk_data (s : String) : String.mk s.data = s := by
  cases s
  rfl

theorem columnLetterSpecGo_eq_go :
    ∀ fuel n acc, columnLetterSpecGo fuel n acc = (get_col_letter_go fuel n).data ++ acc := by
  intro fuel
  induction fuel with
  | zero => intro n acc; rfl
  | succ f ih =>
      intro n acc
      cases n with
      | zero => rfl
      | succ m =>
          rw [columnLetterSpecGo, get_col_letter_go]
          simp only [Nat.succ_ne_zero, if_false, Nat.succ_sub_one]
          rw [ih]
          simp [String.data_append]

/-- **C9**: the code's column-letter conversion coincides with the spec's 1-based
divmod scheme on every zero-based index, and maps 0, 25, 26, 701 to
"A", "Z", "AA", "ZZ" respectively. -/
theorem get_col_letter_matches_spec :
    (∀ i : Nat, get_col_letter i = columnLetterSpec i) ∧
    get_col_letter 0 = "A" ∧ get_col_letter 25 = "Z" ∧
    get_col_letter 26 = "AA" ∧ get_col_letter 701 = "ZZ" := by
  refine ⟨?_, by decide, by decide, by decide, by decide⟩
  intro i
  rw [get_col_letter, columnLetterSpec, columnLetterSpecGo_eq_go]
  rw [List.append_nil, string_mk_data]


/-! ### Dictionary lemmas -/

theorem find?_map_update {β : Type} (k : String) (v : β) :
    ∀ m : List (String × β), m.any (fun p => p.1 == k) = true →
      (m.map (fun p => if p.1 == k then (k, v) else p)).find? (fun p => p.1 == k)
        = some (k, v) := by
  intro m
  induction m with
  | nil => intro h; simp at h
  | cons p t ih =>
      intro h
      cases hp : (p.1 == k) with
      | true =>
          simp only [List.map_cons, hp, if_true]
          rw [List.find?_cons_of_pos _ (by simp)]
      | false =>
          simp only [List.any_cons, Bool.or_eq_true] at h
          have ht := h.resolve_left (by simp [hp])
          simp only [List.map_cons, hp, Bool.false_eq_true, if_false]
          rw [List.find?_cons_of_neg _ (by simp [hp])]
          exact ih ht

theorem find?_map_update_ne {β : Type} (k k' : String) (v : β) (hk : k' ≠ k) :
    ∀ m : List (String × β),
      (m.map (fun p => if p.1 == k then (k, v) else p)).find? (fun p => p.1 == k')
        = m.find? (fun p => p.1 == k') := by
  intro m
  induction m with
  | nil => rfl
  | cons p t ih =>
      cases hp : (p.1 == k) with
      | true =>
          have hp' : p.1 = k := by simpa using hp
          have h₁ : (k == k') = false := beq_eq_false_iff_ne.mpr (fun h => hk h.symm)
          have h₂ : (p.1 == k') = false := by rw [hp']; exact h₁
          simp only [List.map_cons, hp, if_true]
          rw [List.find?_cons_of_neg _ (by simp [h₁]), List.find?_cons_of_neg _ (by simp [h₂])]
          exact ih
      | false =>
          simp only [List.map_cons, hp, Bool.false_eq_true, if_false]
          cases hpk : (p.1 == k') with
          | true =>
              rw [List.find?_cons_of_pos _ (by simp [hpk]), List.find?_cons_of_pos _ (by simp [hpk])]
          | false =>
              rw [List.find?_cons_of_neg _ (by simp [hpk]), List.find?_cons_of_neg _ (by simp [hpk])]
              exact ih

theorem dictGet_insert_self {β : Type} (m : List (String × β)) (k : String) (v : β) :
    dictGet (dictInsert m k v) k = some v := by
  unfold dictInsert
  split
  · rename_i h
    rw [dictGet, find?_map_update k v m h]
    rfl
  · rename_i h
    rw [dictGet, List.find?_append]
    have : m.find? (fun p => p.1 == k) = none := by
      rw [List.find?_eq_none]
      intro p hp
      exact fun hpk => h (List.any_eq_true.mpr ⟨p, hp, hpk⟩)
    simp [this, List.find?]

theorem dictGet_insert_ne {β : Type} (m : List (String × β)) (k k' : String) (v : β)
    (hk : k' ≠ k) : dictGet (dictInsert m k v) k' = dictGet m k' := by
  unfold dictInsert
  split
  · rw [dictGet, find?_map_update_ne k k' v hk m]
    rfl
  · rw [dictGet, List.find?_append]
    have h₁ : (k == k') = false := beq_eq_false_iff_ne.mpr (fun h => hk h.symm)
    cases hm : m.find? (fun p => p.1 == k') <;> simp [List.find?, h₁, dictGet, hm]

theorem dictGet_eq_none_iff {β : Type} (m : List (String × β)) (k : String) :
    dictGet m k = none ↔ ∀ p ∈ m, p.1 ≠ k := by
  rw [dictGet, Option.map_eq_none', List.find?_eq_none]
  constructor
  · intro h p hp
    have := h p hp
    simpa using this
  · intro h p hp
    simpa using h p hp

theorem dictGet_mem {β : Type} {m : List (String × β)} {k : String} {v : β}
    (h : dictGet m k = some v) : (k, v) ∈ m := by
  rw [dictGet] at h
  obtain ⟨p, hp, hpv⟩ := Option.map_eq_some'.mp h
  have hmem := List.mem_of_find?_eq_some hp
  have hkey : p.1 = k := by simpa using List.find?_some hp
  obtain ⟨p₁, p₂⟩ := p
  cases hkey
  cases hpv
  exact hmem

theorem dictInsert_keys {β : Type} (m : List (String × β)) (k : String) (v : β) :
    (dictInsert m k v).map Prod.fst
      = if m.any (fun p => p.1 == k) then m.map Prod.fst else m.map Prod.fst ++ [k] := by
  unfold dictInsert
  split <;> rename_i h
  · rw [List.map_map]
    apply List.map_congr_left
    intro p _
    by_cases hp : p.1 = k
    · simp [hp]
    · simp [hp]
  · simp

theorem dictInsert_keys_nodup {β : Type} (m : List (String × β)) (k : String) (v : β)
    (h : (m.map Prod.fst).Nodup) : ((dictInsert m k v).map Prod.fst).Nodup := by
  rw [dictInsert_keys]
  split
  · exact h
  · rename_i hany
    rw [List.nodup_append]
    refine ⟨h, List.nodup_singleton k, ?_⟩
    intro x hx hxk
    rw [List.mem_singleton] at hxk
    obtain ⟨p, hp, hpk⟩ := List.mem_map.mp hx
    have : (m.any fun p => p.1 == k) = true :=
      List.any_eq_true.mpr ⟨p, hp, beq_iff_eq.mpr (hpk.trans hxk)⟩
    exact hany this

theorem keyMem_dictInsert {β : Type} (m : List (String × β)) (k k' : String) (v : β) :
    (∃ p ∈ dictInsert m k v, p.1 = k') ↔ (∃ p ∈ m, p.1 = k') ∨ k' = k := by
  unfold dictInsert
  split <;> rename_i h
  · constructor
    · rintro ⟨p, hp, hpk⟩
      obtain ⟨q, hq, hqe⟩ := List.mem_map.mp hp
      by_cases hqk : q.1 = k
      · right
        rw [← hqe] at hpk
        simp only [hqk, beq_self_eq_true, if_true] at hpk
        exact hpk.symm
      · left
        refine ⟨q, hq, ?_⟩
        rw [← hqe] at hpk
        simpa [hqk] using hpk
    · rintro (⟨p, hp, hpk⟩ | hek)
      · by_cases hpkk : p.1 = k
        · refine ⟨(k, v), List.mem_map.mpr ⟨p, hp, by simp [hpkk]⟩, ?_⟩
          exact hpkk.symm.trans hpk
        · exact ⟨p, List.mem_map.mpr ⟨p, hp, by simp [hpkk]⟩, hpk⟩
      · obtain ⟨p, hp, hpk⟩ := List.any_eq_true.mp h
        have hpk' : p.1 = k := by simpa using hpk
        exact ⟨(k, v), List.mem_map.mpr ⟨p, hp, by simp [hpk']⟩, hek.symm⟩
  · constructor
    · rintro ⟨p, hp, hpk⟩
      rcases List.mem_append.mp hp with h' | h'
      · exact Or.inl ⟨p, h', hpk⟩
      · rw [List.mem_singleton] at h'
        subst h'
        exact Or.inr hpk.symm
    · rintro (⟨p, hp, hpk⟩ | hek)
      · exact ⟨p, List.mem_append.mpr (Or.inl hp), hpk⟩
      · exact ⟨(k, v), List.mem_append.mpr (Or.inr (List.mem_singleton.mpr rfl)), hek.symm⟩

theorem dictInsert_entry {β : Type} {m : List (String × β)} {k : String} {v : β}
    {p : String × β} (hp : p ∈ dictInsert m k v) : p ∈ m ∨ p = (k, v) := by
  unfold dictInsert at hp
  split at hp
  · obtain ⟨q, hq, hqe⟩ := List.mem_map.mp hp
    by_cases hqk : (q.1 == k) = true
    · simp only [hqk, if_true] at hqe
      exact Or.inr hqe.symm
    · simp only [hqk, if_false] at hqe
      exact Or.inl (hqe ▸ hq)
  · rcases List.mem_append.mp hp with h | h
    · exact Or.inl h
    · exact Or.inr (List.mem_singleton.mp h)

/-! ### Lemmas about `errorsByUid` -/

theorem foldlIns_keys_nodup (l : List ValidationError) :
    ∀ m : List (String × ValidationError), (m.map Prod.fst).Nodup →
      (((l.foldl (fun m e => dictInsert m e.uid e) m).map Prod.fst)).Nodup := by
  induction l with
  | nil => intro m h; exact h
  | cons a t ih => intro m h; exact ih _ (dictInsert_keys_nodup m a.uid a h)

theorem foldlIns_get_of_not_mem (l : List ValidationError) :
    ∀ (m : List (String × ValidationError)) (k : String), (∀ e ∈ l, e.uid ≠ k) →
      dictGet (l.foldl (fun m e => dictInsert m e.uid e) m) k = dictGet m k := by
  induction l with
  | nil => intro m k _; rfl
  | cons a t ih =>
      intro m k h
      rw [List.foldl_cons, ih _ k (fun e he => h e (List.mem_cons_of_mem a he)),
        dictGet_insert_ne _ _ _ _ (fun hk => h a (List.mem_cons_self a t) hk.symm)]

theorem foldlIns_get_unique (l : List ValidationError) :
    ∀ (m : List (String × ValidationError)) (e : ValidationError), e ∈ l →
      (∀ eₓ ∈ l, eₓ.uid = e.uid → eₓ = e) →
      dictGet (l.foldl (fun m e => dictInsert m e.uid e) m) e.uid = some e := by
  induction l with
  | nil => intro m e he; simp at he
  | cons a t ih =>
      intro m e he huniq
      by_cases het : e ∈ t
      · exact ih _ e het (fun eₓ hx hu => huniq eₓ (List.mem_cons_of_mem a hx) hu)
      · have hea : e = a := by
          rcases List.mem_cons.mp he with h | h
          · exact h
          · exact absurd h het
        subst hea
        rw [List.foldl_cons,
          foldlIns_get_of_not_mem t _ e.uid ?hne, dictGet_insert_self]
        case hne =>
          intro eₓ hx hu
          exact het ((huniq eₓ (List.mem_cons_of_mem e hx) hu) ▸ hx)

theorem keyMem_foldlIns (l : List ValidationError) :
    ∀ (m : List (String × ValidationError)) (k : String),
      (∃ p ∈ l.foldl (fun m e => dictInsert m e.uid e) m, p.1 = k) ↔
        (∃ p ∈ m, p.1 = k) ∨ ∃ e ∈ l, e.uid = k := by
  induction l with
  | nil => intro m k; simp
  | cons a t ih =>
      intro m k
      rw [List.foldl_cons, ih]
      rw [keyMem_dictInsert]
      constructor
      · rintro ((h | rfl) | h)
        · exact Or.inl h
        · exact Or.inr ⟨a, List.mem_cons_self a t, rfl⟩
        · obtain ⟨e, he, hk⟩ := h
          exact Or.inr ⟨e, List.mem_cons_of_mem a he, hk⟩
      · rintro (h | ⟨e, he, hk⟩)
        · exact Or.inl (Or.inl h)
        · rcases List.mem_cons.mp he with rfl | het
          · exact Or.inl (Or.inr hk.symm)
          · exact Or.inr ⟨e, het, hk⟩

theorem foldlIns_entry (l : List ValidationError) :
    ∀ (m : List (String × ValidationError)) (p : String × ValidationError),
      p ∈ l.foldl (fun m e => dictInsert m e.uid e) m →
      p ∈ m ∨ (p.2 ∈ l ∧ p.2.uid = p.1) := by
  induction l with
  | nil => intro m p hp; exact Or.inl hp
  | cons a t ih =>
      intro m p hp
      rcases ih _ p hp with h | h
      · rcases dictInsert_entry h with h' | h'
        · exact Or.inl h'
        · subst h'
          exact Or.inr ⟨List.mem_cons_self a t, rfl⟩
      · exact Or.inr ⟨List.mem_cons_of_mem a h.1, h.2⟩



/-! ### The reconcile loop characterised -/

theorem dictGet_filter_ne {β : Type} (k k' : String) (hk : k' ≠ k) :
    ∀ m : List (String × β),
      dictGet (m.filter (fun q => !(q.1 == k))) k' = dictGet m k' := by
  intro m
  induction m with
  | nil => rfl
  | cons q t ih =>
      rw [List.filter_cons]
      by_cases hq : q.1 = k
      · have hqk' : (q.1 == k') = false :=
          beq_eq_false_iff_ne.mpr (fun h => hk (h ▸ hq))
        simp only [hq, beq_self_eq_true, Bool.not_true, Bool.false_eq_true, if_false]
        rw [ih]
        rw [dictGet, dictGet, List.find?_cons_of_neg _ (by simp [hqk'])]
      · have hq' : (q.1 == k) = false := beq_eq_false_iff_ne.mpr hq
        simp only [hq', Bool.not_false, if_true]
        by_cases hq'' : q.1 = k'
        · rw [dictGet, dictGet,
            List.find?_cons_of_pos _ (by simp [hq'']),
            List.find?_cons_of_pos _ (by simp [hq''])]
        · rw [dictGet, dictGet,
            List.find?_cons_of_neg _ (by simp [hq'']),
            List.find?_cons_of_neg _ (by simp [hq''])]
          exact ih

theorem reconcileLoop_eq :
    ∀ (ex : List (String × ReportItem)) (m : List (String × ValidationError)),
      (ex.map Prod.fst).Nodup →
      reconcileLoop ex m =
        (ex.filterMap (fun p =>
            match dictGet m p.1 with
            | some e => some (refreshItem p.2 e)
            | none => if p.2.is_manual then some p.2 else none),
         m.filter (fun q => !(ex.any (fun p => p.1 == q.1)))) := by
  intro ex
  induction ex with
  | nil =>
      intro m _
      simp [reconcileLoop]
  | cons hd rest ih =>
      intro m hnd
      obtain ⟨k, it⟩ := hd
      rw [List.map_cons, List.nodup_cons] at hnd
      have hk : ∀ p ∈ rest, p.1 ≠ k := by
        intro p hp hpk
        exact hnd.1 (List.mem_map.mpr ⟨p, hp, hpk⟩)
      have hfm : rest.filterMap (fun p =>
              match dictGet (m.filter (fun q => !(q.1 == k))) p.1 with
              | some e => some (refreshItem p.2 e)
              | none => if p.2.is_manual then some p.2 else none)
            = rest.filterMap (fun p =>
              match dictGet m p.1 with
              | some e => some (refreshItem p.2 e)
              | none => if p.2.is_manual then some p.2 else none) := by
        apply List.filterMap_congr
        intro p hp
        rw [dictGet_filter_ne k p.1 (hk p hp) m]
      simp only [reconcileLoop]
      cases hget : dictGet m k with
      | some e =>
          have hflt : (m.filter (fun q => !(q.1 == k))).filter
                (fun q => !(rest.any (fun p => p.1 == q.1)))
              = m.filter (fun q => !(((k, it) :: rest).any (fun p => p.1 == q.1))) := by
            rw [List.filter_filter]
            apply List.filter_congr
            intro q _
            by_cases hq : q.1 = k
            · simp [hq]
            · have h₁ : (q.1 == k) = false := beq_eq_false_iff_ne.mpr hq
              have h₂ : (k == q.1) = false := beq_eq_false_iff_ne.mpr (fun h => hq h.symm)
              simp [h₁, h₂]
          rw [ih _ hnd.2]
          refine Prod.ext ?_ ?_
          · show refreshItem it e :: rest.filterMap _ = _
            rw [hfm]
            simp only [List.filterMap_cons, hget]
          · show (m.filter (fun q => !(q.1 == k))).filter _ = _
            rw [hflt]
      | none =>
          have hnotin : ∀ q ∈ m, q.1 ≠ k := (dictGet_eq_none_iff m k).mp hget
          have hflt₂ : m.filter (fun q => !(rest.any (fun p => p.1 == q.1)))
              = m.filter (fun q => !(((k, it) :: rest).any (fun p => p.1 == q.1))) := by
            apply List.filter_congr
            intro q hq
            have h₂ : (k == q.1) = false :=
              beq_eq_false_iff_ne.mpr (fun h => hnotin q hq h.symm)
            simp [h₂]
          by_cases hman : it.is_manual
          · simp only [hman, if_true]
            rw [ih _ hnd.2]
            refine Prod.ext ?_ ?_
            · show it :: rest.filterMap _ = _
              simp only [List.filterMap_cons, hget, hman, if_true]
            · show m.filter _ = _
              rw [hflt₂]
          · have hman' : it.is_manual = false := by simpa using hman
            simp only [hman', if_false]
            rw [ih _ hnd.2]
            refine Prod.ext ?_ ?_
            · show rest.filterMap _ = _
              simp only [List.filterMap_cons, hget, hman']
              rfl
            · show m.filter _ = _
              rw [hflt₂]


theorem reconcilePre_eq (nowD nowM nowY : Nat) (existing : List (String × ReportItem))
    (new_errors : List ValidationError) (hnd : (existing.map Prod.fst).Nodup) :
    reconcilePre nowD nowM nowY existing new_errors =
      existing.filterMap (fun p =>
          match dictGet (errorsByUid new_errors) p.1 with
          | some e => some (refreshItem p.2 e)
          | none => if p.2.is_manual then some p.2 else none)
        ++ ((errorsByUid new_errors).filter
              (fun q => !(existing.any (fun p => p.1 == q.1)))).map
            (fun p => newReportItem (strftimeDMY nowD nowM nowY) p.1 p.2) := by
  simp only [reconcilePre]
  rw [reconcileLoop_eq existing _ hnd]

/-- **C2**: after `reconcile`, an existing item whose uid matches no finding is
in the output iff it is manual (and then it is kept unchanged), and every
finding whose uid matches no existing item yields an output item with that uid,
`is_manual = false` and `created_date` equal to the current date rendered
`DD.MM.YYYY`. -/
theorem reconcile_manual_survival_and_new_items
    (nowD nowM nowY : Nat) (existing : List (String × ReportItem))
    (new_errors : List ValidationError)
    (hnd : (existing.map Prod.fst).Nodup)
    (hu : ∀ p ∈ existing, p.2.uid = p.1) :
    (∀ p ∈ existing, (∀ e ∈ new_errors, e.uid ≠ p.1) →
       (p.2 ∈ reconcile nowD nowM nowY existing new_errors ↔ p.2.is_manual = true)) ∧
    (∀ e ∈ new_errors, (∀ p ∈ existing, p.1 ≠ e.uid) →
       ∃ it ∈ reconcile nowD nowM nowY existing new_errors,
         it.uid = e.uid ∧ it.is_manual = false ∧
         it.created_date = strftimeDMY nowD nowM nowY) := by
  constructor
  · intro p hp hnomatch
    have hnone : dictGet (errorsByUid new_errors) p.1 = none := by
      rw [dictGet_eq_none_iff]
      intro q hq
      rcases foldlIns_entry new_errors [] q hq with h | h
      · simp at h
      · exact fun hqk => hnomatch q.2 h.1 (h.2.trans hqk)
    constructor
    · intro hmem
      rw [reconcile, List.mem_mergeSort,
        reconcilePre_eq _ _ _ _ _ hnd, List.mem_append] at hmem
      rcases hmem with hmem | hmem
      · obtain ⟨q, hq, hfq⟩ := List.mem_filterMap.mp hmem
        cases hget : dictGet (errorsByUid new_errors) q.1 with
        | some e =>
            rw [hget] at hfq
            have hpe : refreshItem q.2 e = p.2 := by
              simpa using hfq
            have hq1 : q.1 = p.1 := by
              have h₁ : (refreshItem q.2 e).uid = q.2.uid := rfl
              rw [← hu q hq, ← h₁, hpe, hu p hp]
            rw [hq1, hnone] at hget
            exact absurd hget (by simp)
        | none =>
            rw [hget] at hfq
            by_cases hqman : q.2.is_manual
            · simp only [hqman, if_true, Option.some.injEq] at hfq
              rw [← hfq]
              exact hqman
            · have hqman' : q.2.is_manual = false := by simpa using hqman
              rw [hqman'] at hfq
              simp at hfq
      · obtain ⟨q, hq, hqe⟩ := List.mem_map.mp hmem
        have hpq : p.2.uid = q.1 := by
          rw [← hqe]
          rfl
        have hq0 := List.mem_of_mem_filter hq
        rcases foldlIns_entry new_errors [] q hq0 with h | h
        · simp at h
        · exact absurd (h.2.trans (hpq.symm.trans (hu p hp)))
            (hnomatch q.2 h.1)
    · intro hman
      rw [reconcile, List.mem_mergeSort,
        reconcilePre_eq _ _ _ _ _ hnd, List.mem_append]
      left
      exact List.mem_filterMap.mpr ⟨p, hp, by rw [hnone]; simp [hman]⟩
  · intro e he hnew
    have hkey : ∃ q ∈ errorsByUid new_errors, q.1 = e.uid :=
      (keyMem_foldlIns new_errors [] e.uid).mpr (Or.inr ⟨e, he, rfl⟩)
    obtain ⟨q, hq, hqk⟩ := hkey
    have hqf : q ∈ (errorsByUid new_errors).filter
        (fun r => !(existing.any (fun p => p.1 == r.1))) := by
      rw [List.mem_filter]
      refine ⟨hq, ?_⟩
      rw [Bool.not_eq_true', List.any_eq_false]
      intro p hp
      simp only [beq_iff_eq, hqk]
      exact hnew p hp
    refine ⟨newReportItem (strftimeDMY nowD nowM nowY) q.1 q.2, ?_, hqk, rfl, rfl⟩
    rw [reconcile, List.mem_mergeSort, reconcilePre_eq _ _ _ _ _ hnd, List.mem_append]
    right
    exact List.mem_map.mpr ⟨q, hqf, rfl⟩

/-- Witness for C2: a stale manual item with no findings, and a fresh finding
with no existing items. -/
theorem reconcile_manual_survival_and_new_items_witness :
    ((ReportItem.mk "m1" true "Продажи" "Тип" "ручная" "" "01.01.2024" "")
        ∈ reconcile 2 10 2025
          [("m1", ReportItem.mk "m1" true "Продажи" "Тип" "ручная" "" "01.01.2024" "")] []
      ↔ (ReportItem.mk "m1" true "Продажи" "Тип" "ручная" "" "01.01.2024" "").is_manual = true) ∧
    (∃ it ∈ reconcile 2 10 2025 []
        [ValidationError.mk 3 "Клиент" "empty" "d" "l" "Продажи" "А"],
      it.uid = (ValidationError.mk 3 "Клиент" "empty" "d" "l" "Продажи" "А").uid ∧
        it.is_manual = false ∧ it.created_date = strftimeDMY 2 10 2025) :=
  ⟨(reconcile_manual_survival_and_new_items 2 10 2025
      [("m1", ReportItem.mk "m1" true "Продажи" "Тип" "ручная" "" "01.01.2024" "")] []
      (by simp) (by simp)).1
      ("m1", ReportItem.mk "m1" true "Продажи" "Тип" "ручная" "" "01.01.2024" "")
      (by simp) (by simp),
   (reconcile_manual_survival_and_new_items 2 10 2025 []
      [ValidationError.mk 3 "Клиент" "empty" "d" "l" "Продажи" "А"]
      (by simp) (by simp)).2
      (ValidationError.mk 3 "Клиент" "empty" "d" "l" "Продажи" "А")
      (by simp) (by simp)⟩

/-- **C7**: an existing item whose uid matches a finding of the current run is
kept with description, link, error column, sheet and admin refreshed from the
finding, while uid, the manual flag and the creation date are unchanged. -/
theorem reconcile_refreshes_matched
    (nowD nowM nowY : Nat) (existing : List (String × ReportItem))
    (new_errors : List ValidationError)
    (hnd : (existing.map Prod.fst).Nodup)
    (p : String × ReportItem) (hp : p ∈ existing)
    (e : ValidationError) (he : e ∈ new_errors)
    (huid : e.uid = p.1)
    (huniq : ∀ eₓ ∈ new_errors, eₓ.uid = p.1 → eₓ = e) :
    { p.2 with
      description := e.description
      link := e.cell_link
      error_column := e.column
      sheet := e.sheet_name
      admin := e.admin } ∈ reconcile nowD nowM nowY existing new_errors := by
  have hget : dictGet (errorsByUid new_errors) p.1 = some e := by
    have h := foldlIns_get_unique new_errors [] e he
      (fun eₓ hx hux => huniq eₓ hx (hux.trans huid))
    rw [huid] at h
    exact h
  rw [reconcile, List.mem_mergeSort, reconcilePre_eq _ _ _ _ _ hnd, List.mem_append]
  left
  refine List.mem_filterMap.mpr ⟨p, hp, ?_⟩
  rw [hget]
  rfl

/-- Witness for C7 at a concrete matched item. -/
theorem reconcile_refreshes_matched_witness :
    { (ReportItem.mk "x" false "Продажи" "Клиент" "старое" "старая" "01.01.2024" "Ира") with
      description := "новое"
      link := "новая"
      error_column := "Клиент"
      sheet := "Продажи"
      admin := "Оля" }
      ∈ reconcile 2 10 2025
        [((ValidationError.mk 3 "Клиент" "empty" "новое" "новая" "Продажи" "Оля").uid,
          ReportItem.mk "x" false "Продажи" "Клиент" "старое" "старая" "01.01.2024" "Ира")]
        [ValidationError.mk 3 "Клиент" "empty" "новое" "новая" "Продажи" "Оля"] :=
  reconcile_refreshes_matched 2 10 2025
    [((ValidationError.mk 3 "Клиент" "empty" "новое" "новая" "Продажи" "Оля").uid,
      ReportItem.mk "x" false "Продажи" "Клиент" "старое" "старая" "01.01.2024" "Ира")]
    [ValidationError.mk 3 "Клиент" "empty" "новое" "новая" "Продажи" "Оля"]
    (by simp)
    ((ValidationError.mk 3 "Клиент" "empty" "новое" "новая" "Продажи" "Оля").uid,
      ReportItem.mk "x" false "Продажи" "Клиент" "старое" "старая" "01.01.2024" "Ира")
    (by simp)
    (ValidationError.mk 3 "Клиент" "empty" "новое" "новая" "Продажи" "Оля")
    (by simp) rfl
    (by intro eₓ hx hu; simp only [List.mem_singleton] at hx; exact hx)

theorem filterMap_uid_sublist (m₀ : List (String × ValidationError)) :
    ∀ l : List (String × ReportItem), (∀ q ∈ l, q.2.uid = q.1) →
      ((l.filterMap (fun p =>
          match dictGet m₀ p.1 with
          | some e => some (refreshItem p.2 e)
          | none => if p.2.is_manual then some p.2 else none)).map
        (fun it => it.uid)).Sublist (l.map Prod.fst) := by
  intro l
  induction l with
  | nil => simp
  | cons q t ih =>
      intro hu
      have hut : ∀ r ∈ t, r.2.uid = r.1 := fun r hr => hu r (List.mem_cons_of_mem q hr)
      rw [List.filterMap_cons, List.map_cons]
      cases hget : dictGet m₀ q.1 with
      | some e =>
          rw [List.map_cons]
          have hh : (refreshItem q.2 e).uid = q.1 := hu q (List.mem_cons_self q t)
          rw [hh]
          exact (ih hut).cons₂ q.1
      | none =>
          by_cases hman : q.2.is_manual
          · simp only [hman, if_true, List.map_cons]
            rw [hu q (List.mem_cons_self q t)]
            exact (ih hut).cons₂ q.1
          · have hman' : q.2.is_manual = false := by simpa using hman
            simp only [hman', if_false, Bool.false_eq_true]
            exact (ih hut).cons q.1

/-- **C10**: whatever the existing-items map and the findings list (duplicate
uids among findings included), the reconciled list contains at most one item
per uid. -/
theorem reconcile_uids_nodup
    (nowD nowM nowY : Nat) (existing : List (String × ReportItem))
    (new_errors : List ValidationError)
    (hnd : (existing.map Prod.fst).Nodup)
    (hu : ∀ p ∈ existing, p.2.uid = p.1) :
    ((reconcile nowD nowM nowY existing new_errors).map (fun it => it.uid)).Nodup := by
  have hperm : ((reconcile nowD nowM nowY existing new_errors).map (fun it => it.uid)).Perm
      ((reconcilePre nowD nowM nowY existing new_errors).map (fun it => it.uid)) :=
    (List.mergeSort_perm _ itemLE).map _
  rw [hperm.nodup_iff]
  rw [reconcilePre_eq _ _ _ _ _ hnd, List.map_append]
  have hpart1 := filterMap_uid_sublist (errorsByUid new_errors) existing hu
  have hm₀nodup : (((errorsByUid new_errors)).map Prod.fst).Nodup :=
    foldlIns_keys_nodup new_errors [] List.nodup_nil
  have hmap2 : (((errorsByUid new_errors).filter
        (fun q => !(existing.any (fun p => p.1 == q.1)))).map
          (fun p => newReportItem (strftimeDMY nowD nowM nowY) p.1 p.2)).map
            (fun it => it.uid)
      = ((errorsByUid new_errors).filter
          (fun q => !(existing.any (fun p => p.1 == q.1)))).map Prod.fst := by
    rw [List.map_map]
    exact List.map_congr_left (fun q _ => rfl)
  apply List.Nodup.append
  · exact List.Nodup.sublist hpart1 hnd
  · rw [hmap2]
    exact List.Nodup.sublist ((List.filter_sublist _).map Prod.fst) hm₀nodup
  · intro x hx1 hx2
    have hxex : x ∈ existing.map Prod.fst := hpart1.subset hx1
    obtain ⟨p, hp, hpk⟩ := List.mem_map.mp hxex
    rw [hmap2] at hx2
    obtain ⟨q, hq, hqk⟩ := List.mem_map.mp hx2
    have hqpred := (List.mem_filter.mp hq).2
    rw [Bool.not_eq_true', List.any_eq_false] at hqpred
    exact absurd (beq_iff_eq.mpr (hpk.trans hqk.symm)) (by simpa using hqpred p hp)

/-- Witness for C10 at a concrete state with duplicate finding uids. -/
theorem reconcile_uids_nodup_witness :
    ((reconcile 2 10 2025
        [("m1", ReportItem.mk "m1" true "Продажи" "Тип" "ручная" "" "01.01.2024" "")]
        [ValidationError.mk 3 "Клиент" "empty" "d" "l" "Продажи" "А",
         ValidationError.mk 3 "Клиент" "empty" "d" "l" "Продажи" "А"]).map
      (fun it => it.uid)).Nodup :=
  reconcile_uids_nodup 2 10 2025 _ _ (by simp) (by simp)


/-! ### Sorting: C3 -/

theorem itemLE_trans : ∀ a b c : ReportItem, itemLE a b → itemLE b c → itemLE a c := by
  intro a b c hab hbc
  simp only [itemLE, decide_eq_true_eq] at hab hbc ⊢
  exact le_trans hab hbc

theorem itemLE_total : ∀ a b : ReportItem, itemLE a b || itemLE b a := by
  intro a b
  simp only [itemLE]
  rcases le_total (sortKey a) (sortKey b) with h | h <;> simp [h]

theorem filter_mergeSort_key (l : List ReportItem) (k : Int ×ₗ (Nat ×ₗ String)) :
    (l.mergeSort itemLE).filter (fun it => decide (sortKey it = k))
      = l.filter (fun it => decide (sortKey it = k)) := by
  have hpw : (l.filter (fun it => decide (sortKey it = k))).Pairwise
      (fun a b => itemLE a b = true) := by
    apply List.pairwise_of_forall_mem_list
    intro a ha b hb
    have hka : sortKey a = k := by simpa using (List.mem_filter.mp ha).2
    have hkb : sortKey b = k := by simpa using (List.mem_filter.mp hb).2
    simp [itemLE, hka, hkb]
  have hsub : (l.filter (fun it => decide (sortKey it = k))).Sublist
      (l.mergeSort itemLE) :=
    List.sublist_mergeSort itemLE_trans itemLE_total hpw (List.filter_sublist l)
  have h₂ : (l.filter (fun it => decide (sortKey it = k))).filter
        (fun it => decide (sortKey it = k))
      = l.filter (fun it => decide (sortKey it = k)) := by
    rw [List.filter_filter]
    exact List.filter_congr (fun a _ => Bool.and_self _)
  have hfsub : (l.filter (fun it => decide (sortKey it = k))).Sublist
      ((l.mergeSort itemLE).filter (fun it => decide (sortKey it = k))) := by
    have h₁ := List.Sublist.filter (fun it => decide (sortKey it = k)) hsub
    rwa [h₂] at h₁
  have hlen : ((l.mergeSort itemLE).filter (fun it => decide (sortKey it = k))).length
      = (l.filter (fun it => decide (sortKey it = k))).length :=
    ((List.mergeSort_perm l itemLE).filter _).length_eq
  exact (hfsub.eq_of_length hlen.symm).symm

/-- **C3**: `reconcile` returns the pre-sort list stably sorted by the composite
key (date as integer YYYYMMDD with failures mapped to 0; the fixed sheet
priority table; the error-column string), so the output is pairwise ordered by
the key and, for every key value, lists the items in their pre-sort relative
order. -/
theorem reconcile_sorted_and_stable (nowD nowM nowY : Nat)
    (existing : List (String × ReportItem)) (new_errors : List ValidationError) :
    ((reconcile nowD nowM nowY existing new_errors).Pairwise
        (fun a b => sortKey a ≤ sortKey b)) ∧
    (∀ k : Int ×ₗ (Nat ×ₗ String),
      (reconcile nowD nowM nowY existing new_errors).filter
          (fun it => decide (sortKey it = k))
        = (reconcilePre nowD nowM nowY existing new_errors).filter
            (fun it => decide (sortKey it = k))) ∧
    sheetOrderVal "Продажи" = 0 ∧ sheetOrderVal "Тренировки" = 1 ∧
    sheetOrderVal "Обращения" = 2 ∧
    (∀ s, s ≠ "Продажи" → s ≠ "Тренировки" → s ≠ "Обращения" → sheetOrderVal s = 99) ∧
    dateSortVal "25.12.2023" = 20231225 ∧
    (∀ s, (splitChar '.' s.data).length ≠ 3 → dateSortVal s = 0) := by
  refine ⟨?_, ?_, rfl, rfl, rfl, ?_, by decide, ?_⟩
  · rw [reconcile]
    have h := List.sorted_mergeSort itemLE_trans itemLE_total
      (reconcilePre nowD nowM nowY existing new_errors)
    exact h.imp (fun hab => of_decide_eq_true hab)
  · intro k
    rw [reconcile]
    exact filter_mergeSort_key _ k
  · intro s h₁ h₂ h₃
    have e₁ : (s == "Продажи") = false := beq_eq_false_iff_ne.mpr h₁
    have e₂ : (s == "Тренировки") = false := beq_eq_false_iff_ne.mpr h₂
    have e₃ : (s == "Обращения") = false := beq_eq_false_iff_ne.mpr h₃
    simp [sheetOrderVal, e₁, e₂, e₃]
  · intro s hs
    have hns : ((splitChar '.' s.data).length == 3) = false :=
      beq_eq_false_iff_ne.mpr hs
    simp [dateSortVal, hns]

/-- Witness for C3's conditional components at concrete values. -/
theorem reconcile_sorted_and_stable_witness :
    sheetOrderVal "Лиды" = 99 ∧ dateSortVal "abc" = 0 :=
  ⟨(reconcile_sorted_and_stable 1 1 2024 [] []).2.2.2.2.2.1 "Лиды"
      (by decide) (by decide) (by decide),
   (reconcile_sorted_and_stable 1 1 2024 [] []).2.2.2.2.2.2.2 "abc" (by decide)⟩



/-! ### Parsing the previous report: C4 -/

/-- **C4** (evaluating the code at the failing input): for a previous-report row
with empty id cell and the manual flag set, the synthetic uid is the md5 of
`"manual_" ++ row[2] ++ "_" ++ row[5]`. Under the rendered layout
`[uid, is_manual, created_date, sheet, error_column, admin, description, link]`
(see `ReportItem.to_row`), index 5 is the **admin** cell — here `"АдминА"` —
while the description cell `"ОписаниеБ"` sits at index 6 and is not hashed,
although the same function assigns index 5 to `admin` and index 6 to
`description` when building the item. -/
theorem parse_existing_report_manual_uid_uses_admin_cell :
    parse_existing_report
        [["", "TRUE", "01.01.2024", "Продажи", "Имя", "АдминА", "ОписаниеБ", "link1"]]
      = [(md5Hex ("manual_" ++ "01.01.2024" ++ "_" ++ "АдминА"),
          { uid := md5Hex ("manual_" ++ "01.01.2024" ++ "_" ++ "АдминА")
            is_manual := true
            sheet := "Продажи"
            error_column := "Имя"
            description := "ОписаниеБ"
            link := "link1"
            created_date := "01.01.2024"
            admin := "АдминА" })] ∧
    (["", "TRUE", "01.01.2024", "Продажи", "Имя", "АдминА", "ОписаниеБ",
        "link1"].getD 5 "" = "АдминА") ∧
    (["", "TRUE", "01.01.2024", "Продажи", "Имя", "АдминА", "ОписаниеБ",
        "link1"].getD 6 "" = "ОписаниеБ") :=
  ⟨rfl, rfl, rfl⟩



/-! ### The validation driver: C6 -/

/-- **C6** (counterexample): with an empty data list every required column is
absent from the (empty) column index map, yet `validate` returns no findings at
all — not exactly one `missing_column` finding. -/
theorem validate_empty_data_counterexample :
    ¬ (∀ (v : SheetCtx) (rule : SheetCtx → Nat → List Cell → List ValidationError),
        (∃ c ∈ v.required_columns, colIndexOf v c = none) →
        ((validateWith v rule).length = 1 ∧
          ∀ e ∈ validateWith v rule,
            e.row_number = 0 ∧ e.error_type = "missing_column")) := by
  intro h
  have hmiss : ∃ c ∈ (SheetCtx.mk [] ["Дата"] "S" "Продажи" 0).required_columns,
      colIndexOf (SheetCtx.mk [] ["Дата"] "S" "Продажи" 0) c = none :=
    ⟨"Дата", by simp, rfl⟩
  have h1 := (h (SheetCtx.mk [] ["Дата"] "S" "Продажи" 0) (fun _ _ _ => []) hmiss).1
  simp [validateWith] at h1

/-- **C6** (amended): for every input with a *nonempty* data list, if some
required column is absent from the column index map then `validate` returns
exactly the single structural finding (row 0, `missing_column`, for the first
absent required column) and performs no per-row validation, whatever the
per-row rule; for empty data it returns no findings. -/
theorem validate_missing_column_amended (v : SheetCtx)
    (rule : SheetCtx → Nat → List Cell → List ValidationError)
    (hne : v.data ≠ [])
    (hmiss : ∃ c ∈ v.required_columns, colIndexOf v c = none) :
    ∃ c₀ ∈ v.required_columns, colIndexOf v c₀ = none ∧
      validateWith v rule
        = [ValidationError.mk 0 c₀ "missing_column" "Колонка не найдена" ""
            v.sheet_name ""] := by
  obtain ⟨c, hc, hcnone⟩ := hmiss
  unfold validateWith
  rw [if_neg hne]
  cases hf : v.required_columns.find? (fun c => (colIndexOf v c).isNone) with
  | some c₀ =>
      refine ⟨c₀, List.mem_of_find?_eq_some hf, ?_, rfl⟩
      have := List.find?_some hf
      exact Option.isNone_iff_eq_none.mp this
  | none =>
      exfalso
      have := List.find?_eq_none.mp hf c hc
      simp [hcnone] at this

/-- Witness for the amended C6 at a concrete sheet missing its required
column. -/
theorem validate_missing_column_amended_witness :
    ∃ c₀ ∈ (SheetCtx.mk [[Cell.str "Имя"]] ["Дата"] "S" "Продажи" 0).required_columns,
      colIndexOf (SheetCtx.mk [[Cell.str "Имя"]] ["Дата"] "S" "Продажи" 0) c₀ = none ∧
      validateWith (SheetCtx.mk [[Cell.str "Имя"]] ["Дата"] "S" "Продажи" 0)
          (fun _ _ _ => [])
        = [ValidationError.mk 0 c₀ "missing_column" "Колонка не найдена" "" "Продажи" ""] :=
  validate_missing_column_amended (SheetCtx.mk [[Cell.str "Имя"]] ["Дата"] "S" "Продажи" 0)
    (fun _ _ _ => []) (by simp) ⟨"Дата", by simp, by rfl⟩

/-! ### Date-based row skipping: C5 -/

/-- **C5** (counterexample): the claim fails for the Trainings validator — a
data row whose date cell is empty is not skipped; it produces an
empty-date finding. -/
theorem trainings_empty_date_not_skipped :
    ¬ (∀ (v : SheetCtx) (todayD curYear : Int) (i : Nat) (row : List Cell),
        (parse_date_value (get_val v row "Дата") curYear = none ∨
          ∃ q, parse_date_value (get_val v row "Дата") curYear = some q ∧
            q > (todayD : ℚ)) →
        salesValidateRow v todayD curYear i row = [] ∧
        trainingsValidateRow v todayD curYear i row = []) := by
  intro h
  have hd : parse_date_value (get_val sampleTrainingsCtx [Cell.str ""] "Дата") 2025 = none := by
    rfl
  have h2 := (h sampleTrainingsCtx 0 2025 1 [Cell.str ""] (Or.inl hd)).2
  have : trainingsValidateRow sampleTrainingsCtx 0 2025 1 [Cell.str ""]
      = [ValidationError.mk 2 "Дата" "empty" "Отсутствует дата"
          "https://docs.google.com/spreadsheets/d/S/edit#gid=0&range=A2"
          "Тренировки" "Уточнить"] := by rfl
  rw [this] at h2
  exact absurd h2 (by simp)

/-- **C5** (amended): the Sales validator skips a row entirely when its date
cell parses to no date or to a date strictly later than today; the Trainings
validator skips only rows whose *parsed* date is strictly later than today —
rows with empty or unparseable dates are still validated. -/
theorem date_skip_amended :
    (∀ (v : SheetCtx) (todayD curYear : Int) (i : Nat) (row : List Cell),
      (parse_date_value (get_val v row "Дата") curYear = none ∨
        ∃ q, parse_date_value (get_val v row "Дата") curYear = some q ∧
          q > (todayD : ℚ)) →
      salesValidateRow v todayD curYear i row = []) ∧
    (∀ (v : SheetCtx) (todayD curYear : Int) (i : Nat) (row : List Cell) (q : ℚ),
      parse_date_value (get_val v row "Дата") curYear = some q → q > (todayD : ℚ) →
      trainingsValidateRow v todayD curYear i row = []) := by
  constructor
  · intro v todayD curYear i row h
    rcases h with h | ⟨q, hq, hqt⟩
    · simp only [salesValidateRow, h]
    · simp only [salesValidateRow, hq]
      rw [if_pos hqt]
  · intro v todayD curYear i row q hq hqt
    simp only [trainingsValidateRow, hq]
    rw [if_pos hqt]

/-- Witness for the amended C5: a sales row with an empty date and a trainings
row dated 01.01.2030 (serial 47484), both skipped relative to today = serial 0. -/
theorem date_skip_amended_witness :
    salesValidateRow sampleSalesCtx 0 2025 1 [Cell.str ""] = [] ∧
    trainingsValidateRow sampleTrainingsCtx 0 2025 1 [Cell.str "01.01.2030"] = [] :=
  ⟨date_skip_amended.1 sampleSalesCtx 0 2025 1 [Cell.str ""] (Or.inl (by rfl)),
   date_skip_amended.2 sampleTrainingsCtx 0 2025 1 [Cell.str "01.01.2030"]
     ((47484 : Int) : ℚ) (by rfl) (by norm_num)⟩


end AdminValidator
